import Mathlib

/-!
Verification of the Tartaros download-manager core against its
natural-language specification.

The development shallowly embeds the pure/deterministic parts of the
Python sources:

* `src/ui/downloads_page.py` — URL tokenization, validation,
  normalization, content-id extraction, duplicate suppression,
  the job record and its event handlers, and the CSV job store.
* `src/core/ytdlp_runner.py` — the options builder, the progress hook,
  the format-selector computations and the attempt/fallback loop.
* `src/settings/store.py` — the typed `AppSettings` record.

Machine integers are modelled as `Nat`/`Int`, Python floats as `ℚ`,
Python dictionaries as ordered association lists (`PyDict`), and
duck-typed `getattr` access as a lookup over the field table of
`AppSettings` (`settingsDict`).  Filesystem effects are modelled by
explicit parameters (`fsExists`, `fsOk`); the translation function `tr`
of the (absent) `ui/i18n.py` module is a parameter `trF`.
-/

namespace Tartaros

/-! ## Python-style string helpers

All helpers recurse structurally over character lists so that every
definition evaluates inside the kernel (`decide`/`rfl`); a few use an
explicit fuel argument initialized so that it never runs out. -/

/-- Python `c.lower()` for ASCII letters (the only case-bearing
characters in the hosts and status tokens this application
lowercases). -/
def pyLowerChar (c : Char) : Char :=
  if 'A' ≤ c ∧ c ≤ 'Z' then Char.ofNat (c.toNat + 32) else c

/-- Python `s.lower()` (ASCII). -/
def pyLower (s : String) : String := String.mk (s.toList.map pyLowerChar)

/-- Python `s.strip()`: remove leading and trailing whitespace. -/
def pyTrim (s : String) : String :=
  String.mk
    (((s.toList.dropWhile Char.isWhitespace).reverse.dropWhile
      Char.isWhitespace).reverse)

/-- Python `s.startswith(pat)`. -/
def pyStartsWith (s pat : String) : Bool :=
  pat.toList.isPrefixOf s.toList

/-- Python `s.endswith(pat)`. -/
def pyEndsWith (s pat : String) : Bool :=
  pat.toList.isSuffixOf s.toList

/-- Split a character list on a single separator character, Python
`s.split(sc)` style: `"a||b"` gives `["a", "", "b"]` and `""` gives
`[""]`. -/
def splitOnCharGo (sc : Char) : List Char → List (List Char)
  | [] => [[]]
  | c :: t =>
    if c = sc then [] :: splitOnCharGo sc t
    else match splitOnCharGo sc t with
      | w :: ws => (c :: w) :: ws
      | [] => [[c]]

/-- Python `s.split(sc)` for a single-character separator. -/
def pySplitChar (sc : Char) (s : String) : List String :=
  (splitOnCharGo sc s.toList).map String.mk

/-- Python `sep.join(parts)` at the character level. -/
def joinChar (sc : Char) : List (List Char) → List Char
  | [] => []
  | x :: xs =>
    match xs with
    | [] => x
    | _ => x ++ sc :: joinChar sc xs

/-- Python `"|".join(urls)` and friends. -/
def pyJoinChar (sc : Char) (parts : List String) : String :=
  String.mk (joinChar sc (parts.map String.toList))

/-- Fuel-driven replacement of every non-overlapping occurrence of
`pat` (non-empty) by `rep`, Python `s.replace(pat, rep)`. -/
def replaceGo (pat rep : List Char) : Nat → List Char → List Char
  | _, [] => []
  | 0, l => l
  | fuel + 1, c :: t =>
    if pat.isPrefixOf (c :: t) ∧ pat ≠ [] then
      rep ++ replaceGo pat rep fuel ((c :: t).drop pat.length)
    else c :: replaceGo pat rep fuel t

/-- Python `s.replace(pat, rep)` for non-empty `pat`. -/
def pyReplace (s pat rep : String) : String :=
  String.mk (replaceGo pat.toList rep.toList s.toList.length s.toList)

/-- Boolean test that `pat` occurs as a contiguous sublist of `s`
(Python's `pat in s` for strings, on the character level). -/
def listHasInfix (pat : List Char) : List Char → Bool
  | [] => pat.isEmpty
  | c :: t => pat.isPrefixOf (c :: t) || listHasInfix pat t

/-- Python's substring containment `sub in s`. -/
def pyContains (sub s : String) : Bool :=
  listHasInfix sub.toList s.toList

/-- Split a character list at the first occurrence of `sep`, returning
the parts before and after it. -/
def splitOnceChars (sep : List Char) : List Char → Option (List Char × List Char)
  | [] => if sep.isEmpty then some ([], []) else none
  | c :: t =>
    if sep.isPrefixOf (c :: t) then some ([], (c :: t).drop sep.length)
    else match splitOnceChars sep t with
      | some (a, b) => some (c :: a, b)
      | none => none

/-- Split a string at the first occurrence of `sep`. -/
def splitOnce (s sep : String) : Option (String × String) :=
  (splitOnceChars sep.toList s.toList).map fun ab =>
    (String.mk ab.1, String.mk ab.2)

/-- Characters of `s` up to (excluding) the first occurrence of `c`
(Python `s.split(c)[0]` for a single-character separator). -/
def takeUntilChar (c : Char) (s : String) : String :=
  String.mk (s.toList.takeWhile (fun x => x ≠ c))

/-- Python `s.lstrip(c)` for a single strip character. -/
def lstripChar (c : Char) (s : String) : String :=
  String.mk (s.toList.dropWhile (fun x => x = c))

/-- Python `s.strip(c)` for a single strip character: removes all
leading and trailing copies of `c`. -/
def stripCharEnds (c : Char) (s : String) : String :=
  String.mk (((s.toList.dropWhile (fun x => x = c)).reverse.dropWhile
    (fun x => x = c)).reverse)

/-- Parse a non-empty all-digit character list as a natural number
(the digit phase of Python `int(...)`). -/
def parseNatChars (l : List Char) : Option Nat :=
  if l ≠ [] ∧ l.all Char.isDigit then
    some (l.foldl (fun acc c => acc * 10 + (c.toNat - 48)) 0)
  else none

/-- Python `int(s)` on decimal string literals: optional surrounding
whitespace, optional sign, digits.  Returns `none` where Python raises
`ValueError`. -/
def pyParseInt (s : String) : Option Int :=
  match (pyTrim s).toList with
  | '-' :: rest => (parseNatChars rest).map fun n => -(n : Int)
  | '+' :: rest => (parseNatChars rest).map fun n => (n : Int)
  | l => (parseNatChars l).map fun n => (n : Int)

/-- Fuel-driven decimal expansion, most significant digit first. -/
def natDigitsGo : Nat → Nat → List Char
  | 0, _ => []
  | fuel + 1, n =>
    if n < 10 then [Nat.digitChar n]
    else natDigitsGo fuel (n / 10) ++ [Nat.digitChar (n % 10)]

/-- Decimal digit characters of `n`, most significant first (the
decimal expansion used by Python's `str(int)`). -/
def natDigitChars (n : Nat) : List Char := natDigitsGo (n + 1) n

/-- Python `str(n)` for a natural number. -/
def pyNatStr (n : Nat) : String := String.mk (natDigitChars n)

/-- Python `str(i)` for an integer. -/
def pyIntStr (i : Int) : String :=
  match i with
  | Int.ofNat n => pyNatStr n
  | Int.negSucc n => "-" ++ pyNatStr (n + 1)

/-- Python `s.split(',')` followed by per-item `strip()` and filtering
of empty items, as used throughout the options builder. -/
def splitCommaTrim (s : String) : List String :=
  ((pySplitChar ',' s).map pyTrim).filter (fun x => x ≠ "")

/-- Python `s.isdigit()` restricted to ASCII digits. -/
def pyIsDigit (s : String) : Bool :=
  !s.toList.isEmpty && s.toList.all Char.isDigit

/-! ## Model of `urllib.parse` (restricted to absolute http/https URLs)

`urlparse`, `parse_qs`, `urlencode` and `quote_plus` are modelled for
the URL shapes this application accepts (scheme `http`/`https`, a host,
an optional path/query/fragment, no userinfo, no `;`-parameters, no
percent-escapes in the inputs the submission surface admits). -/

/-- Result of `urllib.parse.urlparse`. -/
structure UrlParts where
  scheme : String
  netloc : String
  path : String
  query : String
  fragment : String
deriving DecidableEq, Repr

/-- Characters allowed in a URL scheme. -/
def isSchemeChar (c : Char) : Bool :=
  c.isAlphanum || c = '+' || c = '-' || c = '.'

/-- Split `rest` (the text after `scheme://`) into netloc and
remainder: the netloc extends to the first `/`, `?` or `#`. -/
def splitNetloc (rest : List Char) : List Char × List Char :=
  (rest.takeWhile (fun c => c ≠ '/' && c ≠ '?' && c ≠ '#'),
   rest.dropWhile (fun c => c ≠ '/' && c ≠ '?' && c ≠ '#'))

/-- Model of `urllib.parse.urlparse`: lowercases the scheme, splits
netloc, path, query and fragment. -/
def pyUrlparse (url : String) : UrlParts :=
  match splitOnce url "://" with
  | some (sch, rest) =>
    if sch ≠ "" ∧ sch.toList.all isSchemeChar then
      let (netloc, tail) := splitNetloc rest.toList
      let (beforeFrag, frag) :=
        match splitOnceChars ['#'] tail with
        | some (a, b) => (a, b)
        | none => (tail, [])
      let (path, query) :=
        match splitOnceChars ['?'] beforeFrag with
        | some (a, b) => (a, b)
        | none => (beforeFrag, [])
      ⟨pyLower sch, String.mk netloc, String.mk path,
        String.mk query, String.mk frag⟩
    else ⟨"", "", url, "", ""⟩
  | none => ⟨"", "", url, "", ""⟩

/-- Hex digit character (uppercase), for percent-encoding. -/
def hexDigitChar (n : Nat) : Char :=
  if n < 10 then Char.ofNat (48 + n) else Char.ofNat (55 + n)

/-- Characters `urllib.parse.quote_plus` leaves unescaped. -/
def isQuoteSafe (c : Char) : Bool :=
  c.isAlphanum || c = '_' || c = '.' || c = '-' || c = '~'

/-- Model of `urllib.parse.quote_plus` for ASCII inputs: spaces become
`+`, safe characters pass through, the rest are percent-encoded. -/
def pyQuotePlus (s : String) : String :=
  String.mk (s.toList.flatMap fun c =>
    if c = ' ' then ['+']
    else if isQuoteSafe c then [c]
    else ['%', hexDigitChar (c.toNat / 16 % 16), hexDigitChar (c.toNat % 16)])

/-- Hex value of a character, if it is a hex digit. -/
def hexVal (c : Char) : Option Nat :=
  if c.isDigit then some (c.toNat - 48)
  else if 'A' ≤ c ∧ c ≤ 'F' then some (c.toNat - 55)
  else if 'a' ≤ c ∧ c ≤ 'f' then some (c.toNat - 87)
  else none

/-- Model of `urllib.parse.unquote_plus` for ASCII inputs: `+` becomes
a space and `%XX` escapes are decoded (invalid escapes pass through,
as in Python). -/
def pyUnquotePlus (s : String) : String :=
  String.mk (unquoteChars s.toList)
where
  unquoteChars : List Char → List Char
    | [] => []
    | '+' :: t => ' ' :: unquoteChars t
    | '%' :: a :: b :: t =>
      match hexVal a, hexVal b with
      | some ha, some hb => Char.ofNat (ha * 16 + hb) :: unquoteChars t
      | _, _ => '%' :: unquoteChars (a :: b :: t)
    | c :: t => c :: unquoteChars t

/-- Model of `urllib.parse.parse_qs` (default arguments): splits the
query on `&`, keeps only fields of the form `name=value` with a
non-empty value, decodes both sides, and preserves order.  The result
is an ordered multi-map. -/
def pyParseQs (query : String) : List (String × String) :=
  (pySplitChar '&' query).filterMap fun part =>
    match splitOnce part "=" with
    | some (k, v) => if v = "" then none else some (pyUnquotePlus k, pyUnquotePlus v)
    | none => none

/-- Python `key in qs` for the multi-map returned by `parse_qs`. -/
def qsHas (qs : List (String × String)) (k : String) : Bool :=
  qs.any (fun kv => kv.1 = k)

/-- Python `qs.get(key, [""])[0]`: the first value bound to `key`, or
`""` when absent. -/
def qsFirst (qs : List (String × String)) (k : String) : String :=
  match qs.find? (fun kv => kv.1 = k) with
  | some kv => kv.2
  | none => ""

/-- Model of `urllib.parse.urlencode({'v': v})`. -/
def pyUrlencodeV (v : String) : String :=
  "v=" ++ pyQuotePlus v

/-! ## URL handling of `DownloadsPage` (`src/ui/downloads_page.py`) -/

/-- `DownloadsPage._is_valid_url`: scheme must be http/https and the
host must mention `youtube.com` or `youtu.be`. -/
def is_valid_url (url : String) : Bool :=
  let p := pyUrlparse url
  (p.scheme = "http" || p.scheme = "https") &&
    (let host := pyLower p.netloc
     pyContains "youtube.com" host || pyContains "youtu.be" host)

/-- `DownloadsPage.normalize_youtube_url`: canonicalizes the
playlist/video link variants (playlist URLs pass through, `youtu.be`
links drop their query when a `list` parameter is present, and
`watch?v=...&list=...` links are reduced to `watch?v=...`). -/
def normalize_youtube_url (url : String) : String :=
  let p := pyUrlparse url
  let qs := pyParseQs p.query
  let host := pyLower p.netloc
  if pyContains "youtube.com" host ∧ p.path = "/playlist" then url
  else if pyContains "youtu.be" host ∧ qsHas qs "list" then
    p.scheme ++ "://" ++ p.netloc ++ p.path
  else if pyContains "youtube.com" host ∧ p.path = "/watch" ∧ qsHas qs "list" then
    let v := qsFirst qs "v"
    if v ≠ "" then p.scheme ++ "://" ++ p.netloc ++ p.path ++ "?" ++ pyUrlencodeV v
    else url
  else url

/-- `DownloadsPage.is_playlist_url`. -/
def is_playlist_url (url : String) : Bool :=
  let p := pyUrlparse url
  let host := pyLower p.netloc
  let qs := pyParseQs p.query
  pyContains "youtube.com" host && (p.path = "/playlist") && qsHas qs "list"

/-- `DownloadsPage.extract_video_id`: the stable content identifier
used for deduplication (bare videos, shorts, embeds and playlists). -/
def extract_video_id (url : String) : String :=
  let p := pyUrlparse url
  let host := pyLower p.netloc
  let qs := pyParseQs p.query
  if pyContains "youtu.be" host then
    takeUntilChar '/' (lstripChar '/' p.path)
  else if pyContains "youtube.com" host ∧ p.path = "/watch" then
    qsFirst qs "v"
  else if pyContains "youtube.com" host ∧ pyStartsWith p.path "/shorts/" then
    takeUntilChar '/' (pyReplace p.path "/shorts/" "")
  else if pyContains "youtube.com" host ∧ pyStartsWith p.path "/embed/" then
    takeUntilChar '/' (pyReplace p.path "/embed/" "")
  else if pyContains "youtube.com" host ∧ p.path = "/playlist" then
    "playlist:" ++ qsFirst qs "list"
  else ""

/-- Python `line.split()` with no arguments: split on runs of
whitespace, discarding empty tokens. -/
def pySplitWs (s : String) : List String :=
  (go s.toList).filterMap fun w =>
    if w.isEmpty then none else some (String.mk w)
where
  go : List Char → List (List Char)
    | [] => [[]]
    | c :: t =>
      if c.isWhitespace then [] :: go t
      else match go t with
        | w :: ws => (c :: w) :: ws
        | [] => [[c]]

/-- `DownloadsPage.parse_urls`: tokenizes multi-line free text on
newlines and whitespace and keeps the valid URLs. -/
def parse_urls (text : String) : List String :=
  let raw := (pySplitChar '\n' (pyReplace text "\r" "")).map pyTrim
  let urls := raw.flatMap fun line =>
    if line = "" then [] else pySplitWs line
  urls.filter is_valid_url

/-! ## The job record and the manager-side event handlers

`DownloadsPage._items` stores one mutable record per job; the fields
below are exactly the persisted ones (the `widget` entry is a UI
object and is not persisted).  States are the literal strings
`"queued" | "running" | "done" | "error"` used by the source. -/

/-- One job record (the persisted fields of a `DownloadsPage._items`
entry). -/
structure Job where
  id : Int
  title : String
  status : String
  state : String
  locked : Bool
  urls : List String
  error : String
  createdAt : String
  updatedAt : String
  logPath : String
  thumbPath : String
deriving DecidableEq, Repr

/-- `DownloadsPage._get_active_video_ids`: the content identifiers of
every URL of every job in state queued/running/done (the source builds
a set; only membership is ever used, so a list suffices). -/
def get_active_video_ids (items : List Job) : List String :=
  items.flatMap fun item =>
    if item.state = "queued" ∨ item.state = "running" ∨ item.state = "done" then
      (item.urls.map extract_video_id).filter (fun v => v ≠ "")
    else []

/-- The duplicate-suppression loop of `DownloadsPage.run_ytdlp`: a URL
is skipped exactly when its extracted identifier is non-empty and
already belongs to the active-id snapshot taken before the loop. -/
def submit_filter (activeIds : List String) (urls : List String) : List String :=
  urls.filter fun url =>
    let vid := extract_video_id url
    !(vid ≠ "" && activeIds.contains vid)

/-- `DownloadsPage.run_ytdlp` up to worker creation: dedups against
the current collection and, if any URL survives, creates one queued
job covering all survivors.  `batchLabel` models the localized
"batch of N" title and `queuedStatus` the localized queued status
text. -/
def run_ytdlp_submit (items : List Job) (urls : List String) (newId : Int)
    (now : String) (batchLabel : Nat → String) (queuedStatus : String) :
    Option Job :=
  let filtered := submit_filter (get_active_video_ids items) urls
  if filtered = [] then none
  else some
    { id := newId
      title := if filtered.length = 1 then filtered.headD "" else batchLabel filtered.length
      status := queuedStatus
      state := "queued"
      locked := false
      urls := filtered
      error := ""
      createdAt := now
      updatedAt := now
      logPath := ""
      thumbPath := "" }

/-- A character the error-log filename sanitizer keeps: the regex
class `[0-9A-Za-z._\\- ]` plus the Hangul syllable block. -/
def goodTitleChar (c : Char) : Bool :=
  c.isAlphanum || c = '.' || c = '_' || c = '-' || c = ' ' ||
    (0xAC00 ≤ c.toNat && c.toNat ≤ 0xD7A3)

/-- Fuel-driven run collapse: replace every maximal run of disallowed
characters by a single underscore. -/
def collapseBadGo : Nat → List Char → List Char
  | _, [] => []
  | 0, l => l
  | fuel + 1, c :: t =>
    if goodTitleChar c then c :: collapseBadGo fuel t
    else '_' :: collapseBadGo fuel (t.dropWhile (fun x => !goodTitleChar x))

/-- The effect of `re.sub(r"[^...]+", "_", title)`. -/
def collapseBadChars (l : List Char) : List Char := collapseBadGo l.length l

/-- The filename sanitizer of `DownloadsPage._write_error_log`. -/
def sanitizeTitle (title : String) : String :=
  pyTrim (String.mk (collapseBadChars title.toList))

/-- POSIX-style `os.path.isabs`. -/
def osIsAbs (p : String) : Bool := pyStartsWith p "/"

/-- POSIX-style `os.path.join` for the two-argument uses in the
source. -/
def pyPathJoin (a b : String) : String :=
  if osIsAbs b then b
  else if a = "" then b
  else if pyEndsWith a "/" then a ++ b
  else a ++ "/" ++ b

/-- `DownloadsPage._write_error_log`: writes the diagnostic text to a
deterministically named log file and returns its path, or `""` when
the file write raises.  The filesystem outcome is the explicit
parameter `fsOk`. -/
def write_error_log (fsOk : Bool) (appDir : String) (title : String)
    (id : Int) (ts : String) : String :=
  if fsOk then
    pyPathJoin appDir
      ("ERROR_" ++ sanitizeTitle title ++ "(" ++ pyIntStr id ++ ")_" ++ ts ++ ".log")
  else ""

/-- `DownloadsPage.on_error` on the job record: persists the
diagnostic, stores the log path, and moves the job to `"error"`.
`trF` models the translation function `tr`. -/
def on_error (trF : String → String) (fsOk : Bool) (appDir ts now : String)
    (msg : String) (j : Job) : Job :=
  let lp := write_error_log fsOk appDir j.title j.id ts
  { j with error := msg, logPath := lp, status := trF "downloads.status.failed"
           state := "error", updatedAt := now }

/-- `DownloadsPage.on_done` on the job record: a job already in
`"error"` is left untouched; otherwise the job becomes `"done"` with
error and log path cleared. -/
def on_done (trF : String → String) (now : String) (j : Job) : Job :=
  if j.state = "error" then j
  else { j with status := trF "downloads.status.done", state := "done"
                error := "", logPath := "", updatedAt := now }

/-- Fuel-driven stripping of terminal color escapes (`\x1b[...m`),
the effect of the `ansi` regex substitution in `on_progress`. -/
def stripAnsiGo : Nat → List Char → List Char
  | _, [] => []
  | 0, l => l
  | fuel + 1, c :: t =>
    if c = '\x1b' then
      match t with
      | '[' :: rest =>
        match rest.dropWhile (fun x => x.isDigit || x = ';') with
        | 'm' :: tail => stripAnsiGo fuel tail
        | _ => c :: stripAnsiGo fuel t
      | _ => c :: stripAnsiGo fuel t
    else c :: stripAnsiGo fuel t

/-- Strip terminal color escapes from a string. -/
def stripAnsi (s : String) : String :=
  String.mk (stripAnsiGo s.toList.length s.toList)

/-- One-decimal formatting of the percent value, modelling the
f-string `f"{percent:.1f}"` (decimal rounding to one fractional
digit; percent values are non-negative in every emitted signal). -/
def fmt1 (q : ℚ) : String :=
  let n : Int := ⌊q * 10 + 1 / 2⌋
  pyIntStr (n / 10) ++ "." ++ pyIntStr (n % 10)

/-- The payload of a worker `progress` signal. -/
structure ProgressSig where
  status : String
  percent : ℚ
  eta : String
  speed : String
deriving DecidableEq, Repr

/-- `DownloadsPage.on_progress` on the job record: rebuilds the status
text and unconditionally moves the job to `"running"`. -/
def on_progress (now : String) (sig : ProgressSig) (j : Job) : Job :=
  let status := stripAnsi sig.status
  let eta := stripAnsi sig.eta
  let speed := stripAnsi sig.speed
  let parts :=
    (if status ≠ "" then [status] else []) ++ [fmt1 sig.percent ++ "%"] ++
    (if eta ≠ "" then ["ETA " ++ eta] else []) ++
    (if speed ≠ "" then ["@ " ++ speed] else [])
  let meta := pyTrim (String.intercalate "  ·  " parts)
  { j with status := meta, state := "running", updatedAt := now }

/-- `DownloadsPage._restart_item` on the job record: rejected when the
job is locked or has no URLs; otherwise the job is reset to
`"queued"` with error and log path cleared.  (The source re-normalizes
the URLs only for the new worker; the stored `urls` field is not
reassigned.) -/
def restart_item (trF : String → String) (now : String) (j : Job) : Job :=
  if j.locked then j
  else if j.urls.map normalize_youtube_url = [] then j
  else { j with status := trF "downloads.status.queued", state := "queued"
                error := "", logPath := "", updatedAt := now }

/-! ## The CSV job store (`_save_list_csv` / `_load_list_csv`)

Python's `csv` module is modelled at the row level: `DictWriter`
followed by `DictReader` reproduces every cell string exactly (that is
the module's contract for quoted fields), so `save` produces a list of
string-valued rows and `load` consumes one. -/

/-- One row of `list.csv`; every cell is a string, exactly as
`csv.DictReader` yields it. -/
structure CsvRow where
  id : String
  title : String
  status : String
  state : String
  locked : String
  urls : String
  error : String
  createdAt : String
  updatedAt : String
  logPath : String
  thumbPath : String
deriving DecidableEq, Repr

/-- Python `str(b)` for a boolean. -/
def pyStrBool (b : Bool) : String := if b then "True" else "False"

/-- The truthy-string test of `_load_list_csv`:
`str(x).lower() in ("1","true","yes","on")`. -/
def pyParseBoolish (s : String) : Bool :=
  (pyLower s) ∈ (["1", "true", "yes", "on"] : List String)

/-- Serialization of one job into its CSV row
(`DownloadsPage._save_list_csv`): `urls` joined with `|`, booleans and
integers via `str(...)`. -/
def serializeJob (j : Job) : CsvRow where
  id := pyIntStr j.id
  title := j.title
  status := j.status
  state := j.state
  locked := pyStrBool j.locked
  urls := pyJoinChar '|' j.urls
  error := j.error
  createdAt := j.createdAt
  updatedAt := j.updatedAt
  logPath := j.logPath
  thumbPath := j.thumbPath

/-- `DownloadsPage._save_list_csv`: the full collection is rewritten
as one row per job, in collection order. -/
def save_list_csv (items : List Job) : List CsvRow :=
  items.map serializeJob

/-- `DownloadsPage._localize_status`: maps recognized status tokens
(in any of the shipped languages, compared after strip+lower) to the
current locale's text; anything else passes through. -/
def localize_status (trF : String → String) (status : String) : String :=
  if status = "" then status
  else
    let normalized := pyLower (pyTrim status)
    if normalized ∈ (["queued", "대기", "대기중", "waiting", "待機中", "等待中",
        "排队中"] : List String) then
      trF "downloads.status.queued"
    else if normalized ∈ (["done", "완료", "完了", "完成"] : List String) then
      trF "downloads.status.done"
    else if normalized ∈ (["failed", "실패", "失敗", "失败"] : List String) then
      trF "downloads.status.failed"
    else status

/-- Deserialization of one CSV row (`_load_list_csv` loop body):
a row whose `id` does not parse as an integer is skipped; URLs are
split on `|`, cleaned of empties and re-normalized; the status text is
re-localized; `locked` is parsed from its truthy-string form;
timestamps default to `now`; the thumbnail path survives only when the
file still exists (`fsExists`). -/
def parseRow (fsExists : String → Bool) (trF : String → String) (now : String)
    (row : CsvRow) : Option Job :=
  match pyParseInt row.id with
  | none => none
  | some idv =>
    let urlsRaw := (pySplitChar '|' row.urls).filter (fun u => u ≠ "")
    let createdAt := if row.createdAt = "" then now else row.createdAt
    some
      { id := idv
        title := row.title
        status := localize_status trF row.status
        state := row.state
        locked := pyParseBoolish row.locked
        urls := urlsRaw.map normalize_youtube_url
        error := row.error
        createdAt := createdAt
        updatedAt := if row.updatedAt = "" then createdAt else row.updatedAt
        logPath := row.logPath
        thumbPath :=
          if row.thumbPath ≠ "" ∧ fsExists row.thumbPath then row.thumbPath
          else "" }

/-- The stable comparison used by `rows.sort(key=..., reverse=...)`:
ascending on `created_at`, or descending with ties kept in original
order when the sort-direction preference is set. -/
def rowLe (sortDesc : Bool) (a b : CsvRow) : Bool :=
  if sortDesc then decide (b.createdAt ≤ a.createdAt)
  else decide (a.createdAt ≤ b.createdAt)

/-- `DownloadsPage._load_list_csv`: rows are sorted by `created_at`
(honoring the persisted direction), then each row is parsed into a job
record, skipping rows with unparsable ids. -/
def load_list_csv (fsExists : String → Bool) (trF : String → String)
    (now : String) (sortDesc : Bool) (rows : List CsvRow) : List Job :=
  (rows.mergeSort (rowLe sortDesc)).filterMap (parseRow fsExists trF now)

/-! ## The typed settings record (`src/settings/store.py`)

`AppSettings` is a dataclass with exactly these fields (declaration
order preserved); defaults are the dataclass defaults. -/

/-- The `AppSettings` dataclass. -/
structure AppSettings where
  language : String := "English"
  download_dir : String := "ytdl"
  outtmpl_default : String := "[%(uploader)s] %(title)s (%(id)s).%(ext)s"
  outtmpl_playlist : String :=
    "[Playlist] %(playlist_title)s/%(playlist_index)03d. %(title)s (%(id)s).%(ext)s"
  output_format : String := "mp4"
  video_quality : String := "best"
  audio_quality : String := "best"
  concurrent_fragments : Int := 4
  verify_download : Bool := true
  prefer_largest_file : Bool := false
  write_subs : Bool := false
  write_auto_subs : Bool := false
  sub_langs : String := "ko,en"
  embed_subs : Bool := false
  write_thumbnail : Bool := false
  embed_thumbnail : Bool := true
  embed_chapters : Bool := true
  add_metadata : Bool := true
  cookies_from_browser : String := "chrome"
  cookies_file : String := ""
  cookies_text : String := ""
  use_cookies_from_browser : Bool := false
  enable_age_restricted : Bool := false
  proxy : String := ""
  retries : Int := 10
  concurrent_downloads : Int := 3
  yt_player_clients : String := ""
  yt_lang : String := "ko"
  yt_remote_components : String := "ejs:github"
  yt_po_token : String := ""
  deno_path : String := ""
  ffmpeg_path : String := ""
  sponsorblock_enable : Bool := false
  sponsorblock_remove : String := "sponsor,intro,outro"
  sponsorblock_mark : String := ""
  window_x : Int := 100
  window_y : Int := 100
  window_w : Int := 900
  window_h : Int := 640
  settings_x : Int := 120
  settings_y : Int := 120
  settings_w : Int := 900
  settings_h : Int := 640
  list_sort_desc : Bool := false
  clipboard_enabled : Bool := true

/-! ## Python values and dictionaries

The options value handed to the external tool is a Python dict with
heterogeneous values; `PyVal` is its universe and `PyDict` an ordered
association list (Python dicts preserve insertion order and assignment
keeps a key's position). -/

/-- Universe of the Python values appearing in the options dict and
the settings object. -/
inductive PyVal where
  | none
  | bool (b : Bool)
  | int (n : Int)
  | str (s : String)
  | list (xs : List PyVal)
  | tuple (xs : List PyVal)
  | dict (kvs : List (String × PyVal))

/-- Ordered Python dictionary. -/
abbrev PyDict := List (String × PyVal)

/-- Lookup in a `PyDict` (Python `d.get(k)` / `d[k]`). -/
def pyLookup : PyDict → String → Option PyVal
  | [], _ => Option.none
  | kv :: rest, k => if kv.1 = k then some kv.2 else pyLookup rest k

/-- Assignment `d[k] = v`: replaces in place when the key exists,
appends otherwise. -/
def dictSet : PyDict → String → PyVal → PyDict
  | [], k, v => [(k, v)]
  | kv :: rest, k, v =>
    if kv.1 = k then (k, v) :: rest else kv :: dictSet rest k v

/-- Removal `d.pop(k, None)`. -/
def dictPop (d : PyDict) (k : String) : PyDict :=
  d.filter (fun kv => kv.1 ≠ k)

/-- Python `v is None`. -/
def pyIsNone : PyVal → Bool
  | PyVal.none => true
  | _ => false

/-- The attribute table of an `AppSettings` instance (dataclass field
order), the basis for modelling duck-typed `getattr(s, name, default)`
access. -/
def settingsDict (s : AppSettings) : PyDict :=
  [("language", PyVal.str s.language),
   ("download_dir", PyVal.str s.download_dir),
   ("outtmpl_default", PyVal.str s.outtmpl_default),
   ("outtmpl_playlist", PyVal.str s.outtmpl_playlist),
   ("output_format", PyVal.str s.output_format),
   ("video_quality", PyVal.str s.video_quality),
   ("audio_quality", PyVal.str s.audio_quality),
   ("concurrent_fragments", PyVal.int s.concurrent_fragments),
   ("verify_download", PyVal.bool s.verify_download),
   ("prefer_largest_file", PyVal.bool s.prefer_largest_file),
   ("write_subs", PyVal.bool s.write_subs),
   ("write_auto_subs", PyVal.bool s.write_auto_subs),
   ("sub_langs", PyVal.str s.sub_langs),
   ("embed_subs", PyVal.bool s.embed_subs),
   ("write_thumbnail", PyVal.bool s.write_thumbnail),
   ("embed_thumbnail", PyVal.bool s.embed_thumbnail),
   ("embed_chapters", PyVal.bool s.embed_chapters),
   ("add_metadata", PyVal.bool s.add_metadata),
   ("cookies_from_browser", PyVal.str s.cookies_from_browser),
   ("cookies_file", PyVal.str s.cookies_file),
   ("cookies_text", PyVal.str s.cookies_text),
   ("use_cookies_from_browser", PyVal.bool s.use_cookies_from_browser),
   ("enable_age_restricted", PyVal.bool s.enable_age_restricted),
   ("proxy", PyVal.str s.proxy),
   ("retries", PyVal.int s.retries),
   ("concurrent_downloads", PyVal.int s.concurrent_downloads),
   ("yt_player_clients", PyVal.str s.yt_player_clients),
   ("yt_lang", PyVal.str s.yt_lang),
   ("yt_remote_components", PyVal.str s.yt_remote_components),
   ("yt_po_token", PyVal.str s.yt_po_token),
   ("deno_path", PyVal.str s.deno_path),
   ("ffmpeg_path", PyVal.str s.ffmpeg_path),
   ("sponsorblock_enable", PyVal.bool s.sponsorblock_enable),
   ("sponsorblock_remove", PyVal.str s.sponsorblock_remove),
   ("sponsorblock_mark", PyVal.str s.sponsorblock_mark),
   ("window_x", PyVal.int s.window_x),
   ("window_y", PyVal.int s.window_y),
   ("window_w", PyVal.int s.window_w),
   ("window_h", PyVal.int s.window_h),
   ("settings_x", PyVal.int s.settings_x),
   ("settings_y", PyVal.int s.settings_y),
   ("settings_w", PyVal.int s.settings_w),
   ("settings_h", PyVal.int s.settings_h),
   ("list_sort_desc", PyVal.bool s.list_sort_desc),
   ("clipboard_enabled", PyVal.bool s.clipboard_enabled)]

/-- Python `getattr(obj, name, default)` over an attribute table. -/
def pyGetattr (obj : PyDict) (name : String) (dflt : PyVal) : PyVal :=
  (pyLookup obj name).getD dflt

/-- `getattr(s, name, "")` for names that are **not** fields of
`AppSettings` (`format_selector`, `merge_output_format`,
`sponsorblock_api_url`): extracts the string when the lookup yields
one. -/
def getattrStrDflt (s : AppSettings) (name : String) : String :=
  match pyGetattr (settingsDict s) name (PyVal.str "") with
  | PyVal.str v => v
  | _ => ""

/-- `getattr(s, name, False)` for names that are **not** fields of
`AppSettings` (`yt_skip_age_restricted`). -/
def getattrBoolDflt (s : AppSettings) (name : String) : Bool :=
  match pyGetattr (settingsDict s) name (PyVal.bool false) with
  | PyVal.bool b => b
  | _ => false

/-! ## Format selectors and the options builder
(`YtdlpRunner._build_format_selector`, `_fallback_format_selector`,
`_build_options`) -/

/-- The audio-only output formats. -/
def audioFormats : List String := ["mp3", "m4a", "opus", "flac"]

/-- The `best_combo` closure of `_build_format_selector`. -/
def best_combo (output_format limit : String) : String :=
  if output_format = "mp4" then
    "bestvideo[ext=mp4]" ++ limit ++ "+bestaudio[ext=m4a]/" ++
      "bestvideo" ++ limit ++ "+bestaudio/best" ++ limit ++ "/best"
  else if output_format = "webm" then
    "bestvideo[ext=webm]" ++ limit ++ "+bestaudio[ext=webm]/" ++
      "bestvideo" ++ limit ++ "+bestaudio/best" ++ limit ++ "/best"
  else "bestvideo" ++ limit ++ "+bestaudio/best" ++ limit ++ "/best"

/-- `YtdlpRunner._build_format_selector`: audio-only targets get
`bestaudio/best`; video targets get a layered best-video+audio
expression, with a height ceiling parsed from a quality label such as
`"1080p"`. -/
def build_format_selector (s : AppSettings) (output_format : String) : String :=
  let vq := s.video_quality
  let audio_only := output_format ∈ audioFormats ∨ vq = "audio_only"
  if audio_only then "bestaudio/best"
  else if vq = "best" then best_combo output_format ""
  else if pyEndsWith vq "p" then
    match pyParseInt (String.mk vq.toList.dropLast) with
    | some h =>
      if h ≠ 0 then best_combo output_format ("[height<=" ++ pyIntStr h ++ "]")
      else best_combo output_format ""
    | Option.none => best_combo output_format ""
  else best_combo output_format ""

/-- `YtdlpRunner._fallback_format_selector`: the minimal selector used
by the one-time fallback rewrite. -/
def fallback_format_selector (output_format : String) : String :=
  if output_format ∈ audioFormats then "bestaudio/best" else "best"

/-- The `postprocessors` value as a list (`opts.get("postprocessors")
or []`). -/
def getPostprocessors (opts : PyDict) : List PyVal :=
  match pyLookup opts "postprocessors" with
  | some (PyVal.list l) => l
  | _ => []

/-- Assignment into the nested `opts["extractor_args"]["youtube"]`
dict. -/
def setYoutubeArg (d : PyDict) (k : String) (v : PyVal) : PyDict :=
  match pyLookup d "extractor_args" with
  | some (PyVal.dict ea) =>
    match pyLookup ea "youtube" with
    | some (PyVal.dict y) =>
      dictSet d "extractor_args"
        (PyVal.dict (dictSet ea "youtube" (PyVal.dict (dictSet y k v))))
    | _ => d
  | _ => d

/-- The alternate player-client override stored under
`opts["extractor_args"]["youtube"]["player_client"]`, if any. -/
def playerClientOf (d : PyDict) : Option PyVal :=
  match pyLookup d "extractor_args" with
  | some (PyVal.dict ea) =>
    match pyLookup ea "youtube" with
    | some (PyVal.dict y) => pyLookup y "player_client"
    | _ => Option.none
  | _ => Option.none

/-- The guarded `opts["extractor_args"]["youtube"].pop("player_client",
None)` of the fallback rewrite. -/
def popPlayerClient (d : PyDict) : PyDict :=
  match pyLookup d "extractor_args" with
  | some (PyVal.dict ea) =>
    match pyLookup ea "youtube" with
    | some (PyVal.dict y) =>
      dictSet d "extractor_args"
        (PyVal.dict (dictSet ea "youtube" (PyVal.dict (dictPop y "player_client"))))
    | _ => d
  | _ => d

/-- `YtdlpRunner._build_options`: assembles the full yt-dlp options
dict from the settings in source order, then drops every key whose
value is `None`.  `appBase` stands for the project root directory
(three `dirname`s above the module file) against which a relative
download directory is resolved. -/
def build_options (s : AppSettings) (allow_playlist : Bool) (appBase : String) :
    PyDict :=
  let download_dir :=
    if s.download_dir ≠ "" ∧ ¬ osIsAbs s.download_dir then
      pyPathJoin appBase s.download_dir
    else s.download_dir
  let outtmpl := if allow_playlist then s.outtmpl_playlist else s.outtmpl_default
  let output_format := s.output_format
  let format_selector :=
    let explicit := getattrStrDflt s "format_selector"
    if explicit ≠ "" then explicit else build_format_selector s output_format
  let merge_output_format :=
    let explicit := getattrStrDflt s "merge_output_format"
    if explicit ≠ "" then some explicit
    else if output_format ∈ (["mp4", "mkv", "webm"] : List String) then
      some output_format
    else Option.none
  let remote_components :=
    let rc := pyTrim s.yt_remote_components
    if rc ≠ "" then some [rc] else Option.none
  let postprocessors :=
    (if s.embed_subs then [PyVal.dict [("key", PyVal.str "FFmpegEmbedSubtitle")]]
     else []) ++
    (if s.embed_thumbnail then [PyVal.dict [("key", PyVal.str "EmbedThumbnail")]]
     else []) ++
    (if s.add_metadata then
      [PyVal.dict [("key", PyVal.str "FFmpegMetadata"),
        ("add_chapters", PyVal.bool s.embed_chapters),
        ("add_metadata", PyVal.bool true)]]
     else if s.embed_chapters then
      [PyVal.dict [("key", PyVal.str "FFmpegMetadata"),
        ("add_chapters", PyVal.bool true),
        ("add_metadata", PyVal.bool false)]]
     else [])
  let cookies_browser :=
    if s.use_cookies_from_browser ∧ s.cookies_from_browser ≠ "" then
      PyVal.tuple [PyVal.str s.cookies_from_browser]
    else PyVal.none
  let subtitleslangs := splitCommaTrim s.sub_langs
  let opts : PyDict :=
    [("noplaylist", PyVal.bool (!allow_playlist)),
     ("paths", PyVal.dict [("home", PyVal.str download_dir)]),
     ("outtmpl", PyVal.str outtmpl),
     ("format", if format_selector ≠ "" then PyVal.str format_selector else PyVal.none),
     ("merge_output_format",
       match merge_output_format with
       | some m => PyVal.str m
       | Option.none => PyVal.none),
     ("concurrent_fragment_downloads", PyVal.int s.concurrent_fragments),
     ("writesubtitles", PyVal.bool s.write_subs),
     ("writeautomaticsub", PyVal.bool s.write_auto_subs),
     ("subtitleslangs",
       if subtitleslangs = [] then PyVal.none
       else PyVal.list (subtitleslangs.map PyVal.str)),
     ("writethumbnail", PyVal.bool (s.write_thumbnail || s.embed_thumbnail)),
     ("cookiesfrombrowser", cookies_browser),
     ("cookiefile", if s.cookies_file ≠ "" then PyVal.str s.cookies_file else PyVal.none),
     ("proxy", if s.proxy ≠ "" then PyVal.str s.proxy else PyVal.none),
     ("retries", PyVal.int s.retries),
     ("extractor_args", PyVal.dict [("youtube", PyVal.dict
       [("lang", PyVal.list (if s.yt_lang ≠ "" then [PyVal.str s.yt_lang] else []))])]),
     ("remote_components",
       match remote_components with
       | some l => PyVal.list (l.map PyVal.str)
       | Option.none => PyVal.none),
     ("postprocessors",
       if postprocessors.isEmpty then PyVal.none else PyVal.list postprocessors)]
  let player_clients := splitCommaTrim s.yt_player_clients
  let opts :=
    if player_clients ≠ [] then
      setYoutubeArg opts "player_client" (PyVal.list (player_clients.map PyVal.str))
    else opts
  let opts :=
    if s.prefer_largest_file then
      dictSet
        (dictSet opts "format_sort"
          (PyVal.list [PyVal.str "filesize:best", PyVal.str "res:best",
            PyVal.str "fps:best", PyVal.str "br:best"]))
        "format_sort_force" (PyVal.bool true)
    else opts
  let opts :=
    if s.yt_po_token ≠ "" then
      setYoutubeArg opts "po_token" (PyVal.list [PyVal.str s.yt_po_token])
    else opts
  let opts :=
    if output_format ∈ audioFormats then
      let aq_val := pyReplace s.audio_quality "k" ""
      let pp := PyVal.dict
        ([("key", PyVal.str "FFmpegExtractAudio"),
          ("preferredcodec", PyVal.str output_format)] ++
         (if aq_val ≠ "" ∧ pyIsDigit aq_val then
            [("preferredquality", PyVal.str aq_val)]
          else []))
      dictSet opts "postprocessors" (PyVal.list (pp :: getPostprocessors opts))
    else opts
  let opts :=
    if getattrBoolDflt s "yt_skip_age_restricted" then
      dictSet opts "match_filter" (PyVal.str "age_limit is None or age_limit < 18")
    else opts
  let opts :=
    if s.sponsorblock_enable then
      let sb_remove := s.sponsorblock_remove
      let sb_api := getattrStrDflt s "sponsorblock_api_url"
      let categories := splitCommaTrim sb_remove ++ splitCommaTrim s.sponsorblock_mark
      if categories ≠ [] then
        let sb_pp := PyVal.dict
          ([("key", PyVal.str "SponsorBlock"),
            ("categories", PyVal.list (categories.map PyVal.str))] ++
           (if sb_api ≠ "" then [("api", PyVal.str sb_api)] else []))
        let opts := dictSet opts "postprocessors"
          (PyVal.list (getPostprocessors opts ++ [sb_pp]))
        if sb_remove ≠ "" then
          let modify_pp := PyVal.dict
            [("key", PyVal.str "ModifyChapters"),
             ("remove_sponsor_segments",
               PyVal.list ((splitCommaTrim sb_remove).map PyVal.str))]
          dictSet opts "postprocessors"
            (PyVal.list (getPostprocessors opts ++ [modify_pp]))
        else opts
      else opts
    else opts
  opts.filter (fun kv => !pyIsNone kv.2)

/-! ## The progress hook (`YtdlpRunner._progress_hook`)

A raw yt-dlp progress event, restricted to the numeric/text fields the
hook reads.  Byte counts are Python floats/ints, modelled as `ℚ`;
`Option.none` models an absent key (`d.get(...)` returning `None`). -/

/-- The fields of a raw progress event the hook reads. -/
structure RawEvent where
  status : Option String := Option.none
  filename : Option String := Option.none
  total_bytes : Option ℚ := Option.none
  total_bytes_estimate : Option ℚ := Option.none
  downloaded_bytes : Option ℚ := Option.none
  eta_str : Option String := Option.none
  speed_str : Option String := Option.none
  percent_str : Option String := Option.none

/-- Python `a or b` on optional numbers: `None` and `0` are falsy. -/
def orQ (a b : Option ℚ) : Option ℚ :=
  match a with
  | some x => if x = 0 then b else some x
  | Option.none => b

/-- Decimal-literal parsing for Python `float(s)` (sign, digits,
optional fractional part — the forms yt-dlp's percent strings take);
`none` where Python raises. -/
def parseDecChars (l : List Char) : Option ℚ :=
  match splitOnceChars ['.'] l with
  | Option.none => (parseNatChars l).map (fun n => (n : ℚ))
  | some (a, b) =>
    if a = [] ∧ b = [] then Option.none
    else
      match (if a = [] then some 0 else parseNatChars a),
            (if b = [] then some 0 else parseNatChars b) with
      | some x, some y => some ((x : ℚ) + (y : ℚ) / (10 : ℚ) ^ b.length)
      | _, _ => Option.none

/-- Python `float(s)` on the decimal forms above. -/
def pyParseFloat (s : String) : Option ℚ :=
  match (pyTrim s).toList with
  | '-' :: rest => (parseDecChars rest).map (fun q => -q)
  | '+' :: rest => parseDecChars rest
  | l => parseDecChars l

/-- The percent computation of `_progress_hook`: byte-ratio when a
truthy total is available (`total_bytes`, else its estimate), with
`downloaded_bytes` defaulting to `0`; otherwise the `_percent_str`
field (default `"0.0%"`) stripped of `%` and parsed, `0.0` on parse
failure. -/
def progress_hook_percent (ev : RawEvent) : ℚ :=
  let total := orQ ev.total_bytes ev.total_bytes_estimate
  let downloaded := ev.downloaded_bytes.getD 0
  let fromStr := (pyParseFloat (stripCharEnds '%' (ev.percent_str.getD "0.0%"))).getD 0
  match total with
  | some t => if t ≠ 0 then downloaded / t * 100 else fromStr
  | Option.none => fromStr

/-- The tuple `_progress_hook` emits through the `progress` signal
(status, percent, eta, speed); the filename bookkeeping feeds only the
cancellation cleanup. -/
def progress_hook (ev : RawEvent) : String × ℚ × String × String :=
  (ev.status.getD "", progress_hook_percent ev, ev.eta_str.getD "",
    ev.speed_str.getD "")

/-! ## The attempt/fallback loop (`YtdlpRunner.run`)

The external `ydl.download(...)` call is the only failure source the
loop reacts to; it is modelled by an oracle giving the outcome of the
i-th download call of the run.  Probe (`extract_info`) failures are
swallowed by the source and only feed `info` events, so they do not
appear in the loop state. -/

/-- Outcome of one `ydl.download` call: success, a raised
`DownloadCancelled`, or an exception with diagnostic text
(`traceback.format_exc()`). -/
inductive DlResult where
  | ok
  | cancelled
  | fail (diag : String)

/-- The "requested format unavailable" signature test
(`"Requested format is not available" in last_err`). -/
def formatUnavailable (diag : String) : Bool :=
  pyContains "Requested format is not available" diag

/-- The fallback rewrite applied to the live options dict: minimal
format selector, merge/format-sort directives removed, alternate
player-client override removed. -/
def applyFallback (opts : PyDict) (output_format : String) : PyDict :=
  popPlayerClient
    (dictPop
      (dictPop
        (dictPop (dictSet opts "format"
          (PyVal.str (fallback_format_selector output_format)))
          "merge_output_format")
        "format_sort")
      "format_sort_force")

/-- The retry notice `f"Retrying download ({attempt}/{max_attempts})"`. -/
def retryMsg (attempt maxAttempts : Nat) : String :=
  "Retrying download (" ++ pyNatStr attempt ++ "/" ++ pyNatStr maxAttempts ++ ")"

/-- State threaded through the attempt loop: the live options dict,
the one-shot fallback flag, the last captured diagnostic, the log
events emitted, the options used by each download call in order, the
next call index, and whether the run was cancelled. -/
structure LoopSt where
  opts : PyDict
  fallbackUsed : Bool
  lastErr : Option String
  logs : List String
  callOpts : List PyDict
  callIdx : Nat
  wasCancelled : Bool

/-- Record one download call made under the current options. -/
def recordCall (st : LoopSt) : LoopSt :=
  { st with callOpts := st.callOpts ++ [st.opts], callIdx := st.callIdx + 1 }

/-- A successful download call: clear the captured diagnostic. -/
def markOk (st : LoopSt) : LoopSt :=
  { recordCall st with lastErr := Option.none }

/-- A download call interrupted by `DownloadCancelled`. -/
def markCancelled (st : LoopSt) : LoopSt :=
  { recordCall st with wasCancelled := true }

/-- A failed download call: capture the diagnostic. -/
def recordFail (st : LoopSt) (d : String) : LoopSt :=
  { recordCall st with lastErr := some d }

/-- Apply the fallback rewrite and log the fallback notice. -/
def applyFbState (st : LoopSt) (output_format : String) : LoopSt :=
  { st with opts := applyFallback st.opts output_format
            fallbackUsed := true
            logs := st.logs ++ ["Fallback format: best"] }

/-- Append the retry notice. -/
def addRetryLog (st : LoopSt) (attempt maxAttempts : Nat) : LoopSt :=
  { st with logs := st.logs ++ [retryMsg attempt maxAttempts] }

/-- The attempt loop of `YtdlpRunner.run`, for a run in which
cancellation is observed at attempt boundaries via `cancelReq` and
mid-download via the oracle's `cancelled` outcome.  `remaining` is the
number of attempts left (structural fuel, `maxAttempts` at entry). -/
def loopGo (oracle : Nat → DlResult) (cancelReq : Nat → Bool)
    (output_format : String) (maxAttempts : Nat) :
    Nat → Nat → LoopSt → LoopSt
  | 0, _, st => st
  | remaining + 1, attempt, st =>
    if cancelReq attempt then { st with wasCancelled := true }
    else
      match oracle st.callIdx with
      | DlResult.cancelled => markCancelled st
      | DlResult.ok => markOk st
      | DlResult.fail d =>
        let st1 := recordFail st d
        if !st1.fallbackUsed && formatUnavailable d then
          let st2 := applyFbState st1 output_format
          match oracle st2.callIdx with
          | DlResult.ok => markOk st2
          | DlResult.cancelled => markCancelled st2
          | DlResult.fail d2 =>
            let st3 := recordFail st2 d2
            if attempt < maxAttempts then
              loopGo oracle cancelReq output_format maxAttempts remaining
                (attempt + 1) (addRetryLog st3 attempt maxAttempts)
            else st3
        else
          if attempt < maxAttempts then
            loopGo oracle cancelReq output_format maxAttempts remaining
              (attempt + 1) (addRetryLog st1 attempt maxAttempts)
          else st1

/-- Initial loop state over the options dict the run starts with. -/
def initSt (opts0 : PyDict) : LoopSt :=
  { opts := opts0, fallbackUsed := false, lastErr := Option.none, logs := [],
    callOpts := [], callIdx := 0, wasCancelled := false }

/-- Run the attempt loop: attempts `1 .. maxAttempts`. -/
def runLoop (oracle : Nat → DlResult) (cancelReq : Nat → Bool)
    (output_format : String) (maxAttempts : Nat) (opts0 : PyDict) : LoopSt :=
  loopGo oracle cancelReq output_format maxAttempts maxAttempts 1 (initSt opts0)

/-- A run during which cancellation is never requested. -/
def neverCancel : Nat → Bool := fun _ => false

/-- Python `int(x)` with the `except` arm of `run` (fall back to 1). -/
def pyValToIntOr1 : PyVal → Int
  | PyVal.int n => n
  | PyVal.bool b => if b then 1 else 0
  | PyVal.str v =>
    match pyParseInt v with
    | some n => n
    | Option.none => 1
  | _ => 1

/-- The effective attempt bound of `YtdlpRunner.run`:
`max(1, int(getattr(settings, "max_attempts", 1)))`. -/
def resolveMaxAttempts (s : AppSettings) : Nat :=
  (max 1 (pyValToIntOr1 (pyGetattr (settingsDict s) "max_attempts" (PyVal.int 1)))).toNat

/-- The whole attempt phase of `YtdlpRunner.run` driven by the
settings record: the loop under the options built by `build_options`
(plus the post-build keys that do not participate in the fallback
rewrite) and the resolved attempt bound. -/
def run_worker (s : AppSettings) (opts0 : PyDict) (oracle : Nat → DlResult)
    (cancelReq : Nat → Bool) : LoopSt :=
  runLoop oracle cancelReq s.output_format (resolveMaxAttempts s) opts0

/-- Number of retry notices among the emitted log events. -/
def retryLogCount (logs : List String) : Nat :=
  (logs.filter (fun l => pyStartsWith l "Retrying download")).length

/-- Number of fallback notices among the emitted log events. -/
def fallbackLogCount (logs : List String) : Nat :=
  (logs.filter (fun l => l = "Fallback format: best")).length

/-- Oracle built from a finite script of outcomes (calls beyond the
script succeed). -/
def oracleOf (script : List DlResult) : Nat → DlResult :=
  fun i => (script.get? i).getD DlResult.ok

/-! ## Dictionary lookup lemmas -/

/-- Assignment stores the value under its key. -/
theorem pyLookup_dictSet_self (d : PyDict) (k : String) (v : PyVal) :
    pyLookup (dictSet d k v) k = some v := by
  induction d with
  | nil => simp [dictSet, pyLookup]
  | cons kv rest ih =>
    by_cases h : kv.1 = k
    · simp [dictSet, h, pyLookup]
    · simp [dictSet, h, pyLookup, ih]

/-- Assignment leaves other keys untouched. -/
theorem pyLookup_dictSet_ne (d : PyDict) (k k' : String) (v : PyVal)
    (h : k' ≠ k) : pyLookup (dictSet d k v) k' = pyLookup d k' := by
  induction d with
  | nil => simp [dictSet, pyLookup, Ne.symm h]
  | cons kv rest ih =>
    by_cases hk : kv.1 = k
    · simp [dictSet, hk, pyLookup, Ne.symm h]
    · simp [dictSet, hk, pyLookup, ih]

/-- Removal erases the key. -/
theorem pyLookup_dictPop_self (d : PyDict) (k : String) :
    pyLookup (dictPop d k) k = Option.none := by
  induction d with
  | nil => simp [dictPop, pyLookup]
  | cons kv rest ih =>
    by_cases h : kv.1 = k
    · simpa [dictPop, List.filter_cons, h] using ih
    · simpa [dictPop, List.filter_cons, h, pyLookup] using ih

/-- Removal leaves other keys untouched. -/
theorem pyLookup_dictPop_ne (d : PyDict) (k k' : String) (h : k' ≠ k) :
    pyLookup (dictPop d k) k' = pyLookup d k' := by
  induction d with
  | nil => simp [dictPop, pyLookup]
  | cons kv rest ih =>
    by_cases hk : kv.1 = k
    · have hne : kv.1 ≠ k' := by rw [hk]; exact Ne.symm h
      have h1 : dictPop (kv :: rest) k = dictPop rest k := by
        simp [dictPop, List.filter_cons, hk]
      rw [h1, ih]
      simp [pyLookup, hne]
    · have h1 : dictPop (kv :: rest) k = kv :: dictPop rest k := by
        simp [dictPop, List.filter_cons, hk]
      rw [h1]
      by_cases hk' : kv.1 = k'
      · simp [pyLookup, hk']
      · simp [pyLookup, hk', ih]

/-- The fallback rewrite's effect on the options dict: the format
selector is replaced by the minimal fallback, the merge and
format-sort directives are gone, and so is the alternate
player-client override. -/
theorem applyFallback_lookups (opts : PyDict) (f : String) :
    pyLookup (applyFallback opts f) "format" =
      some (PyVal.str (fallback_format_selector f)) ∧
    pyLookup (applyFallback opts f) "merge_output_format" = Option.none ∧
    pyLookup (applyFallback opts f) "format_sort" = Option.none ∧
    pyLookup (applyFallback opts f) "format_sort_force" = Option.none ∧
    playerClientOf (applyFallback opts f) = Option.none := by
  unfold applyFallback
  generalize hd : dictPop (dictPop (dictPop (dictSet opts "format"
    (PyVal.str (fallback_format_selector f))) "merge_output_format")
    "format_sort") "format_sort_force" = d4
  have hfmt : pyLookup d4 "format" = some (PyVal.str (fallback_format_selector f)) := by
    rw [← hd]
    rw [pyLookup_dictPop_ne _ _ _ (by decide), pyLookup_dictPop_ne _ _ _ (by decide),
      pyLookup_dictPop_ne _ _ _ (by decide), pyLookup_dictSet_self]
  have hmerge : pyLookup d4 "merge_output_format" = Option.none := by
    rw [← hd]
    rw [pyLookup_dictPop_ne _ _ _ (by decide), pyLookup_dictPop_ne _ _ _ (by decide),
      pyLookup_dictPop_self]
  have hfs : pyLookup d4 "format_sort" = Option.none := by
    rw [← hd]
    rw [pyLookup_dictPop_ne _ _ _ (by decide), pyLookup_dictPop_self]
  have hfsf : pyLookup d4 "format_sort_force" = Option.none := by
    rw [← hd]
    rw [pyLookup_dictPop_self]
  cases hEA : pyLookup d4 "extractor_args" with
  | none =>
    have hpop : popPlayerClient d4 = d4 := by simp [popPlayerClient, hEA]
    rw [hpop]
    exact ⟨hfmt, hmerge, hfs, hfsf, by simp [playerClientOf, hEA]⟩
  | some v =>
    cases v with
    | dict ea =>
      cases hY : pyLookup ea "youtube" with
      | none =>
        have hpop : popPlayerClient d4 = d4 := by simp [popPlayerClient, hEA, hY]
        rw [hpop]
        exact ⟨hfmt, hmerge, hfs, hfsf, by simp [playerClientOf, hEA, hY]⟩
      | some w =>
        cases w with
        | dict y =>
          have hpop : popPlayerClient d4 = dictSet d4 "extractor_args"
              (PyVal.dict (dictSet ea "youtube"
                (PyVal.dict (dictPop y "player_client")))) := by
            simp [popPlayerClient, hEA, hY]
          rw [hpop]
          refine ⟨?_, ?_, ?_, ?_, ?_⟩
          · rw [pyLookup_dictSet_ne _ _ _ _ (by decide)]; exact hfmt
          · rw [pyLookup_dictSet_ne _ _ _ _ (by decide)]; exact hmerge
          · rw [pyLookup_dictSet_ne _ _ _ _ (by decide)]; exact hfs
          · rw [pyLookup_dictSet_ne _ _ _ _ (by decide)]; exact hfsf
          · simp [playerClientOf, pyLookup_dictSet_self, pyLookup_dictPop_self]
        | none =>
          have hpop : popPlayerClient d4 = d4 := by simp [popPlayerClient, hEA, hY]
          rw [hpop]
          exact ⟨hfmt, hmerge, hfs, hfsf, by simp [playerClientOf, hEA, hY]⟩
        | bool b =>
          have hpop : popPlayerClient d4 = d4 := by simp [popPlayerClient, hEA, hY]
          rw [hpop]
          exact ⟨hfmt, hmerge, hfs, hfsf, by simp [playerClientOf, hEA, hY]⟩
        | int n =>
          have hpop : popPlayerClient d4 = d4 := by simp [popPlayerClient, hEA, hY]
          rw [hpop]
          exact ⟨hfmt, hmerge, hfs, hfsf, by simp [playerClientOf, hEA, hY]⟩
        | str s =>
          have hpop : popPlayerClient d4 = d4 := by simp [popPlayerClient, hEA, hY]
          rw [hpop]
          exact ⟨hfmt, hmerge, hfs, hfsf, by simp [playerClientOf, hEA, hY]⟩
        | list xs =>
          have hpop : popPlayerClient d4 = d4 := by simp [popPlayerClient, hEA, hY]
          rw [hpop]
          exact ⟨hfmt, hmerge, hfs, hfsf, by simp [playerClientOf, hEA, hY]⟩
        | tuple xs =>
          have hpop : popPlayerClient d4 = d4 := by simp [popPlayerClient, hEA, hY]
          rw [hpop]
          exact ⟨hfmt, hmerge, hfs, hfsf, by simp [playerClientOf, hEA, hY]⟩
    | none =>
      have hpop : popPlayerClient d4 = d4 := by simp [popPlayerClient, hEA]
      rw [hpop]
      exact ⟨hfmt, hmerge, hfs, hfsf, by simp [playerClientOf, hEA]⟩
    | bool b =>
      have hpop : popPlayerClient d4 = d4 := by simp [popPlayerClient, hEA]
      rw [hpop]
      exact ⟨hfmt, hmerge, hfs, hfsf, by simp [playerClientOf, hEA]⟩
    | int n =>
      have hpop : popPlayerClient d4 = d4 := by simp [popPlayerClient, hEA]
      rw [hpop]
      exact ⟨hfmt, hmerge, hfs, hfsf, by simp [playerClientOf, hEA]⟩
    | str s =>
      have hpop : popPlayerClient d4 = d4 := by simp [popPlayerClient, hEA]
      rw [hpop]
      exact ⟨hfmt, hmerge, hfs, hfsf, by simp [playerClientOf, hEA]⟩
    | list xs =>
      have hpop : popPlayerClient d4 = d4 := by simp [popPlayerClient, hEA]
      rw [hpop]
      exact ⟨hfmt, hmerge, hfs, hfsf, by simp [playerClientOf, hEA]⟩
    | tuple xs =>
      have hpop : popPlayerClient d4 = d4 := by simp [popPlayerClient, hEA]
      rw [hpop]
      exact ⟨hfmt, hmerge, hfs, hfsf, by simp [playerClientOf, hEA]⟩

/-! ## Attempt-loop invariants -/

/-- A retry notice is never the fallback notice. -/
theorem retryMsg_ne_fallback (a m : Nat) : retryMsg a m ≠ "Fallback format: best" := by
  intro h
  have h2 := congrArg String.data h
  simp only [retryMsg, String.data_append] at h2
  simp at h2

/-- `fallbackLogCount` distributes over append. -/
theorem fallbackLogCount_append (l1 l2 : List String) :
    fallbackLogCount (l1 ++ l2) = fallbackLogCount l1 + fallbackLogCount l2 := by
  simp [fallbackLogCount, List.filter_append]

/-- The loop only appends to the log and call-record lists. -/
theorem loopGo_extends (oracle : Nat → DlResult) (cr : Nat → Bool) (f : String)
    (mA : Nat) : ∀ r a st,
    st.logs <+: (loopGo oracle cr f mA r a st).logs ∧
    st.callOpts <+: (loopGo oracle cr f mA r a st).callOpts := by
  intro r
  induction r with
  | zero => intro a st; simp [loopGo]
  | succ r ih =>
    intro a st
    simp only [loopGo]
    by_cases hc : cr a
    · simp [hc]
    · simp only [hc, if_false, Bool.false_eq_true]
      cases ho : oracle st.callIdx with
      | ok =>
        exact ⟨by simp [markOk, recordCall], by simp [markOk, recordCall]⟩
      | cancelled =>
        exact ⟨by simp [markCancelled, recordCall], by simp [markCancelled, recordCall]⟩
      | fail d =>
        by_cases hfb : (!(recordFail st d).fallbackUsed && formatUnavailable d) = true
        · simp only [hfb, if_true]
          cases ho2 : oracle (applyFbState (recordFail st d) f).callIdx with
          | ok =>
            refine ⟨?_, ?_⟩
            · simp only [markOk, recordCall, applyFbState, recordFail]
              simp
            · simp only [markOk, recordCall, applyFbState, recordFail]
              simp [List.append_assoc]
          | cancelled =>
            refine ⟨?_, ?_⟩
            · simp only [markCancelled, recordCall, applyFbState, recordFail]
              simp
            · simp only [markCancelled, recordCall, applyFbState, recordFail]
              simp [List.append_assoc]
          | fail d2 =>
            by_cases hlt : a < mA
            · simp only [hlt, if_true]
              refine ⟨?_, ?_⟩
              · refine List.IsPrefix.trans ?_
                  (ih (a + 1) (addRetryLog (recordFail (applyFbState (recordFail st d) f) d2) a mA)).1
                simp only [addRetryLog, recordFail, recordCall, applyFbState]
                simp [List.append_assoc]
              · refine List.IsPrefix.trans ?_
                  (ih (a + 1) (addRetryLog (recordFail (applyFbState (recordFail st d) f) d2) a mA)).2
                simp only [addRetryLog, recordFail, recordCall, applyFbState]
                simp [List.append_assoc]
            · simp only [hlt, if_false]
              refine ⟨?_, ?_⟩
              · simp only [recordFail, recordCall, applyFbState]
                simp
              · simp only [recordFail, recordCall, applyFbState]
                simp [List.append_assoc]
        · simp only [hfb]
          by_cases hlt : a < mA
          · simp only [hlt, if_true]
            refine ⟨?_, ?_⟩
            · refine List.IsPrefix.trans ?_
                (ih (a + 1) (addRetryLog (recordFail st d) a mA)).1
              simp [addRetryLog, recordFail, recordCall]
            · refine List.IsPrefix.trans ?_
                (ih (a + 1) (addRetryLog (recordFail st d) a mA)).2
              simp [addRetryLog, recordFail, recordCall]
          · simp only [hlt, if_false]
            exact ⟨by simp [recordFail, recordCall], by simp [recordFail, recordCall]⟩

/-- Once the one-shot fallback flag is set, the loop never emits
another fallback notice. -/
theorem loopGo_fb_used (oracle : Nat → DlResult) (cr : Nat → Bool) (f : String)
    (mA : Nat) : ∀ r a st, st.fallbackUsed = true →
    fallbackLogCount (loopGo oracle cr f mA r a st).logs =
      fallbackLogCount st.logs := by
  intro r
  induction r with
  | zero => intro a st h; simp [loopGo]
  | succ r ih =>
    intro a st h
    simp only [loopGo]
    by_cases hc : cr a
    · simp [hc]
    · simp only [hc, if_false, Bool.false_eq_true]
      cases ho : oracle st.callIdx with
      | ok => simp [markOk, recordCall]
      | cancelled => simp [markCancelled, recordCall]
      | fail d =>
        have hfb : (!(recordFail st d).fallbackUsed && formatUnavailable d) = false := by
          simp [recordFail, recordCall, h]
        simp only [hfb, Bool.false_eq_true, if_false]
        by_cases hlt : a < mA
        · simp only [hlt, if_true]
          rw [ih (a + 1) _ (by simp [addRetryLog, recordFail, recordCall, h])]
          simp [addRetryLog, recordFail, recordCall, fallbackLogCount_append,
            fallbackLogCount, retryMsg_ne_fallback a mA]
        · simp [hlt, recordFail, recordCall]

/-- The fallback notice is emitted at most once per run, whatever the
outcomes of the download calls are. -/
theorem loopGo_fb_le (oracle : Nat → DlResult) (cr : Nat → Bool) (f : String)
    (mA : Nat) : ∀ r a st,
    fallbackLogCount (loopGo oracle cr f mA r a st).logs ≤
      fallbackLogCount st.logs + (if st.fallbackUsed then 0 else 1) := by
  intro r
  induction r with
  | zero => intro a st; simp [loopGo]
  | succ r ih =>
    intro a st
    by_cases hflag : st.fallbackUsed = true
    · rw [loopGo_fb_used oracle cr f mA (r + 1) a st hflag]
      simp [hflag]
    · have hflag' : st.fallbackUsed = false := by
        cases hst : st.fallbackUsed
        · rfl
        · exact absurd hst hflag
      simp only [loopGo]
      by_cases hc : cr a
      · simp [hc, hflag']
      · simp only [hc, if_false, Bool.false_eq_true]
        cases ho : oracle st.callIdx with
        | ok => simp [markOk, recordCall, hflag']
        | cancelled => simp [markCancelled, recordCall, hflag']
        | fail d =>
          by_cases hsig : formatUnavailable d = true
          · have hfb : (!(recordFail st d).fallbackUsed && formatUnavailable d) = true := by
              simp [recordFail, recordCall, hflag', hsig]
            simp only [hfb, if_true]
            cases ho2 : oracle (applyFbState (recordFail st d) f).callIdx with
            | ok =>
              simp [markOk, recordCall, applyFbState, recordFail, hflag',
                fallbackLogCount_append, fallbackLogCount]
            | cancelled =>
              simp [markCancelled, recordCall, applyFbState, recordFail, hflag',
                fallbackLogCount_append, fallbackLogCount]
            | fail d2 =>
              by_cases hlt : a < mA
              · simp only [hlt, if_true]
                rw [loopGo_fb_used oracle cr f mA r (a + 1) _
                  (by simp [addRetryLog, recordFail, recordCall, applyFbState])]
                simp [addRetryLog, recordFail, recordCall, applyFbState, hflag',
                  fallbackLogCount_append, fallbackLogCount,
                  retryMsg_ne_fallback a mA]
              · simp only [hlt, if_false]
                simp [recordFail, recordCall, applyFbState, hflag',
                  fallbackLogCount_append, fallbackLogCount]
          · have hfb : (!(recordFail st d).fallbackUsed && formatUnavailable d) = false := by
              simp [recordFail, recordCall, hflag', hsig]
            simp only [hfb, Bool.false_eq_true, if_false]
            by_cases hlt : a < mA
            · simp only [hlt, if_true]
              have := ih (a + 1) (addRetryLog (recordFail st d) a mA)
              have heq : fallbackLogCount (addRetryLog (recordFail st d) a mA).logs =
                  fallbackLogCount st.logs := by
                simp [addRetryLog, recordFail, recordCall, fallbackLogCount_append,
                  fallbackLogCount, retryMsg_ne_fallback a mA]
              rw [heq] at this
              simpa [addRetryLog, recordFail, recordCall, hflag'] using this
            · simp [hlt, recordFail, recordCall, hflag']

/-! ## Claim C10 -/

/-- C10: for every job and every progress event delivered for it, the
progress handler sets the job's state to `"running"` unconditionally —
in particular also when the job is currently `"done"` or `"error"`, so
a late progress event from a stale worker moves such a job back to
Running. -/
theorem c10_progress_always_running (now : String) (sig : ProgressSig) (j : Job) :
    (on_progress now sig j).state = "running" := rfl

/-! ## Claim C9 -/

/-- C9: `AppSettings` declares no `max_attempts` field, so the
worker's `getattr(settings, "max_attempts", 1)` lookup always falls
back to the default `1`; the effective attempt bound is therefore
exactly 1 for every settings value, and the retry branch never fires:
no run driven by any settings record emits a retry notice, whatever
the download outcomes are. -/
theorem c9_max_attempts_always_one (s : AppSettings) (opts0 : PyDict)
    (oracle : Nat → DlResult) :
    pyGetattr (settingsDict s) "max_attempts" (PyVal.int 1) = PyVal.int 1 ∧
    resolveMaxAttempts s = 1 ∧
    retryLogCount (run_worker s opts0 oracle neverCancel).logs = 0 := by
  refine ⟨rfl, rfl, ?_⟩
  show retryLogCount
    (loopGo oracle neverCancel s.output_format 1 (0 + 1) 1 (initSt opts0)).logs = 0
  cases h : oracle 0 with
  | ok => simp [loopGo, initSt, markOk, recordCall, neverCancel, h, retryLogCount]
  | cancelled =>
    simp [loopGo, initSt, markCancelled, recordCall, neverCancel, h, retryLogCount]
  | fail d =>
    by_cases hf : formatUnavailable d
    · cases h2 : oracle 1 with
      | ok =>
        simp [loopGo, initSt, markOk, recordCall, recordFail, applyFbState,
          neverCancel, h, h2, hf, retryLogCount]
        decide
      | cancelled =>
        simp [loopGo, initSt, markCancelled, recordCall, recordFail, applyFbState,
          neverCancel, h, h2, hf, retryLogCount]
        decide
      | fail d2 =>
        simp [loopGo, initSt, markCancelled, recordCall, recordFail, applyFbState,
          neverCancel, h, h2, hf, retryLogCount]
        decide
    · simp [loopGo, initSt, recordFail, recordCall, neverCancel, h, hf, retryLogCount]

/-! ## Claim C2 -/

/-- A concrete job in `"error"` state, with diagnostic and log path
set. -/
def c2ErrJob : Job where
  id := 1
  title := "vid"
  status := "Failed"
  state := "error"
  locked := false
  urls := ["https://youtu.be/abc123DEF45"]
  error := "boom"
  createdAt := "2024-01-01T00:00:00"
  updatedAt := "2024-01-01T00:01:00"
  logPath := "/app/ERROR_vid(1)_x.log"
  thumbPath := ""

/-- C2 counterexample: the claim's clause "only an explicit restart
leaves Error" fails — a late progress event delivered to this Error
job moves it to `"running"` (no restart involved). -/
theorem c2_counterexample :
    (on_progress "2024-01-01T00:02:00"
      { status := "downloading", percent := 50, eta := "", speed := "" }
      c2ErrJob).state = "running" ∧
    ¬ (on_progress "2024-01-01T00:02:00"
      { status := "downloading", percent := 50, eta := "", speed := "" }
      c2ErrJob).state = "error" := by
  constructor
  · rfl
  · intro h
    exact absurd h (by decide)

/-- C2 amended: a done signal delivered to a job in `Error` leaves the
job record entirely unchanged (the done handler never overwrites an
Error state with Done); an explicit restart of an unlocked Error job
with URLs moves it to `Queued`; but Error is not left *only* by
restart — a late progress event also leaves it, setting `Running`. -/
theorem c2_error_sticky_under_done (trF : String → String) (now : String)
    (j : Job) (h : j.state = "error") :
    on_done trF now j = j ∧
    (¬ j.locked → j.urls ≠ [] → (restart_item trF now j).state = "queued") ∧
    (∀ sig, (on_progress now sig j).state = "running") := by
  refine ⟨by simp [on_done, h], ?_, fun _ => rfl⟩
  intro hlock hurls
  simp [restart_item, hlock, hurls]

/-- C2 witness: the amended theorem applied to the concrete Error job
above. -/
theorem c2_error_sticky_under_done_witness :
    on_done (fun k => k) "t1" c2ErrJob = c2ErrJob ∧
    (restart_item (fun k => k) "t1" c2ErrJob).state = "queued" := by
  obtain ⟨h1, h2, _⟩ := c2_error_sticky_under_done (fun k => k) "t1" c2ErrJob rfl
  exact ⟨h1, h2 (by decide) (by decide)⟩

/-! ## Claim C3 -/

/-- C3: when the first download failure of a run matches the
"Requested format is not available" signature and the fallback has not
been used, the worker immediately performs one more download call
under rewritten options: the format selector becomes the minimal
fallback (`"bestaudio/best"` for the audio-only targets
mp3/m4a/opus/flac, `"best"` otherwise), the merge-output-format and
format-sort directives and the alternate player-client override are
removed.  The extra call does not consume an attempt iteration (if it
succeeds, no retry notice is ever logged and the run ends after
exactly two calls with no captured error), and the fallback rewrite
happens at most once per run regardless of how many download calls
fail. -/
theorem c3_fallback_rewrite (opts0 : PyDict) (oracle : Nat → DlResult)
    (ofmt : String) (mA : Nat) (d : String)
    (h0 : oracle 0 = DlResult.fail d) (hd : formatUnavailable d = true)
    (hm : 1 ≤ mA) :
    (runLoop oracle neverCancel ofmt mA opts0).callOpts.get? 1 =
      some (applyFallback opts0 ofmt) ∧
    pyLookup (applyFallback opts0 ofmt) "format" =
      some (PyVal.str (fallback_format_selector ofmt)) ∧
    pyLookup (applyFallback opts0 ofmt) "merge_output_format" = Option.none ∧
    pyLookup (applyFallback opts0 ofmt) "format_sort" = Option.none ∧
    pyLookup (applyFallback opts0 ofmt) "format_sort_force" = Option.none ∧
    playerClientOf (applyFallback opts0 ofmt) = Option.none ∧
    (ofmt ∈ audioFormats → fallback_format_selector ofmt = "bestaudio/best") ∧
    (ofmt ∉ audioFormats → fallback_format_selector ofmt = "best") ∧
    (∀ oracle2 : Nat → DlResult,
      fallbackLogCount (runLoop oracle2 neverCancel ofmt mA opts0).logs ≤ 1) ∧
    (oracle 1 = DlResult.ok →
      (runLoop oracle neverCancel ofmt mA opts0).lastErr = Option.none ∧
      (runLoop oracle neverCancel ofmt mA opts0).callOpts =
        [opts0, applyFallback opts0 ofmt] ∧
      retryLogCount (runLoop oracle neverCancel ofmt mA opts0).logs = 0) := by
  obtain ⟨k, rfl⟩ : ∃ k, mA = k + 1 := ⟨mA - 1, by omega⟩
  have hfb := applyFallback_lookups opts0 ofmt
  refine ⟨?_, hfb.1, hfb.2.1, hfb.2.2.1, hfb.2.2.2.1, hfb.2.2.2.2,
    (by intro h; simp [fallback_format_selector, h]),
    (by intro h; simp [fallback_format_selector, h]), ?_, ?_⟩
  · show (loopGo oracle neverCancel ofmt (k + 1) (k + 1) 1 (initSt opts0)).callOpts.get? 1 = _
    simp only [loopGo, neverCancel, Bool.false_eq_true, if_false, initSt, h0,
      recordFail, recordCall, applyFbState]
    simp only [List.nil_append]
    cases h1 : oracle 1 with
    | ok => simp [hd, markOk, recordCall]
    | cancelled => simp [hd, markCancelled, recordCall]
    | fail d2 =>
      by_cases hlt : 0 < k
      · have hlt2 : 1 < k + 1 := by omega
        simp only [hd, hlt2, if_true, Bool.not_false, Bool.and_true, decide_True,
          addRetryLog, List.singleton_append, List.cons_append, List.nil_append]
        have hext := (loopGo_extends oracle neverCancel ofmt (k + 1) k (1 + 1)
          { opts := applyFallback opts0 ofmt, fallbackUsed := true,
            lastErr := some d2, logs := ["Fallback format: best", retryMsg 1 (k + 1)],
            callOpts := [opts0, applyFallback opts0 ofmt], callIdx := 0 + 1 + 1,
            wasCancelled := false }).2
        obtain ⟨t, ht⟩ := hext
        rw [← ht]
        rfl
      · simp [hd, hlt, recordFail, recordCall]
  · intro oracle2
    have h := loopGo_fb_le oracle2 neverCancel ofmt (k + 1) (k + 1) 1 (initSt opts0)
    simpa [runLoop, initSt, fallbackLogCount] using h
  · intro h1
    simp only [runLoop, loopGo, neverCancel, Bool.false_eq_true, if_false, initSt,
      h0, recordFail, recordCall, applyFbState, hd, if_true]
    simp only [List.nil_append, h1]
    simp [markOk, recordCall, retryLogCount]
    decide

/-- A concrete diagnostic matching the format-unavailable signature. -/
def c3Sig : String :=
  "yt_dlp.utils.DownloadError: ERROR: Requested format is not available"

/-- A concrete options dict carrying every directive the fallback
rewrite strips. -/
def c3Opts : PyDict :=
  [("format", PyVal.str "bestvideo+bestaudio"),
   ("merge_output_format", PyVal.str "mp4"),
   ("format_sort", PyVal.list [PyVal.str "filesize:best"]),
   ("format_sort_force", PyVal.bool true),
   ("extractor_args", PyVal.dict [("youtube", PyVal.dict
     [("lang", PyVal.list [PyVal.str "ko"]),
      ("player_client", PyVal.list [PyVal.str "web"])])])]

/-- C3 witness: the fallback theorem applied to a concrete run whose
first download call fails with the signature and whose immediate
fallback retry succeeds. -/
theorem c3_fallback_rewrite_witness :
    (runLoop (oracleOf [DlResult.fail c3Sig, DlResult.ok]) neverCancel "mp4" 3
      c3Opts).callOpts.get? 1 = some (applyFallback c3Opts "mp4") ∧
    fallbackLogCount (runLoop (oracleOf [DlResult.fail c3Sig, DlResult.ok])
      neverCancel "mp4" 3 c3Opts).logs ≤ 1 ∧
    (runLoop (oracleOf [DlResult.fail c3Sig, DlResult.ok]) neverCancel "mp4" 3
      c3Opts).lastErr = Option.none := by
  obtain ⟨a, _, _, _, _, _, _, _, hle, himp⟩ :=
    c3_fallback_rewrite c3Opts (oracleOf [DlResult.fail c3Sig, DlResult.ok])
      "mp4" 3 c3Sig rfl (by decide) (by omega)
  obtain ⟨e1, _, _⟩ := himp rfl
  exact ⟨a, hle _, e1⟩

/-! ## Claim C6 -/

/-- C6: with an attempt bound of 3 and a download call that fails on
the first two attempts with diagnostics not matching the
format-unavailable signature and succeeds on the third, the worker
captures no terminal error (so no `error` event is emitted and the
done handler moves the non-error job to `"done"`), and exactly two
retry notices are logged. -/
theorem c6_retry_twice_then_done (opts0 : PyDict) (ofmt : String) (d1 d2 : String)
    (h1 : formatUnavailable d1 = false) (h2 : formatUnavailable d2 = false) :
    (runLoop (oracleOf [DlResult.fail d1, DlResult.fail d2, DlResult.ok])
      neverCancel ofmt 3 opts0).lastErr = Option.none ∧
    retryLogCount (runLoop (oracleOf [DlResult.fail d1, DlResult.fail d2,
      DlResult.ok]) neverCancel ofmt 3 opts0).logs = 2 ∧
    (∀ trF now (j : Job), j.state ≠ "error" → (on_done trF now j).state = "done") := by
  have hrun : runLoop (oracleOf [DlResult.fail d1, DlResult.fail d2, DlResult.ok])
      neverCancel ofmt 3 opts0 =
      { opts := opts0, fallbackUsed := false, lastErr := Option.none,
        logs := [retryMsg 1 3, retryMsg 2 3],
        callOpts := [opts0, opts0, opts0], callIdx := 3, wasCancelled := false } := by
    simp [runLoop, loopGo, initSt, oracleOf, neverCancel, h1, h2, recordFail,
      recordCall, markOk, addRetryLog]
  refine ⟨by rw [hrun], ?_, ?_⟩
  · rw [hrun]
    show retryLogCount [retryMsg 1 3, retryMsg 2 3] = 2
    decide
  · intro trF now j h
    simp [on_done, h]

/-- C6 witness: the theorem applied to two concrete non-format
diagnostics. -/
theorem c6_retry_twice_then_done_witness :
    (runLoop (oracleOf [DlResult.fail "HTTP Error 403: Forbidden",
      DlResult.fail "Read timed out", DlResult.ok]) neverCancel "mp4" 3
      []).lastErr = Option.none ∧
    retryLogCount (runLoop (oracleOf [DlResult.fail "HTTP Error 403: Forbidden",
      DlResult.fail "Read timed out", DlResult.ok]) neverCancel "mp4" 3
      []).logs = 2 := by
  obtain ⟨a, b, _⟩ := c6_retry_twice_then_done [] "mp4"
    "HTTP Error 403: Forbidden" "Read timed out" (by decide) (by decide)
  exact ⟨a, b⟩

/-! ## Claim C1 -/

/-- The submitted input text of the example. -/
def c1Text : String :=
  "https://youtu.be/abc123DEF45\nhttps://www.youtube.com/watch?v=abc123DEF45&list=PL1"

/-- The two canonical URLs the example normalizes to. -/
def c1Url1 : String := "https://youtu.be/abc123DEF45"

/-- Canonical form of the second submitted URL. -/
def c1Url2 : String := "https://www.youtube.com/watch?v=abc123DEF45"

/-- A concrete batch label, standing for the localized
`tr("downloads.batch").format(count=n)`. -/
def c1Batch (n : Nat) : String := "batch of " ++ pyNatStr n

/-- C1 counterexample: submitting the example text as one input does
NOT yield a job with exactly one surviving URL — duplicate suppression
compares only against identifiers of jobs already in the collection,
so with an empty collection both URLs survive the filter and the one
created job carries two URLs. -/
theorem c1_counterexample :
    ¬ (submit_filter (get_active_video_ids [])
        ((parse_urls c1Text).map normalize_youtube_url)).length = 1 ∧
    (run_ytdlp_submit [] ((parse_urls c1Text).map normalize_youtube_url) 1
        "t0" c1Batch "Queued").map Job.urls = some [c1Url1, c1Url2] := by
  constructor
  · decide
  · decide

/-- C1 amended: the example text tokenizes into two URLs which
normalize to two distinct canonical URLs, both with extracted
identifier `abc123DEF45`; submitting them together yields exactly one
job containing both surviving URLs (intra-batch duplicates are not
suppressed — the suppression snapshot covers only pre-existing jobs),
while submitting the second URL separately once a job with the first
URL is queued yields no job at all. -/
theorem c1_dedup_example :
    (parse_urls c1Text).map normalize_youtube_url = [c1Url1, c1Url2] ∧
    c1Url1 ≠ c1Url2 ∧
    extract_video_id c1Url1 = "abc123DEF45" ∧
    extract_video_id c1Url2 = "abc123DEF45" ∧
    run_ytdlp_submit [] [c1Url1, c1Url2] 1 "t0" c1Batch "Queued" =
      some
        { id := 1, title := c1Batch 2, status := "Queued", state := "queued",
          locked := false, urls := [c1Url1, c1Url2], error := "",
          createdAt := "t0", updatedAt := "t0", logPath := "", thumbPath := "" } ∧
    run_ytdlp_submit
      [{ id := 1, title := c1Batch 2, status := "Queued", state := "queued",
         locked := false, urls := [c1Url1, c1Url2], error := "",
         createdAt := "t0", updatedAt := "t0", logPath := "", thumbPath := "" }]
      [c1Url2] 2 "t1" c1Batch "Queued" = Option.none := by
  refine ⟨by decide, by decide, by decide, by decide, by decide, by decide⟩

/-! ## Round-trip lemmas for the primitive serializations -/

/-- Digit characters are digits. -/
theorem digitChar_isDigit {k : Nat} (h : k < 10) :
    (Nat.digitChar k).isDigit = true := by
  interval_cases k <;> decide

/-- Digit characters decode to their value. -/
theorem digitChar_toNat {k : Nat} (h : k < 10) :
    (Nat.digitChar k).toNat - 48 = k := by
  interval_cases k <;> decide

/-- With sufficient fuel, the decimal expansion is non-empty, consists
of digits, and folds back to its value. -/
theorem natDigitsGo_spec (fuel : Nat) : ∀ n, n < fuel →
    natDigitsGo fuel n ≠ [] ∧
    (∀ c ∈ natDigitsGo fuel n, c.isDigit = true) ∧
    (natDigitsGo fuel n).foldl (fun acc c => acc * 10 + (c.toNat - 48)) 0 = n := by
  induction fuel with
  | zero => intro n h; omega
  | succ f ih =>
    intro n h
    by_cases h10 : n < 10
    · refine ⟨by simp [natDigitsGo, h10], ?_, ?_⟩
      · intro c hc
        simp [natDigitsGo, h10] at hc
        subst hc
        exact digitChar_isDigit h10
      · simp [natDigitsGo, h10, digitChar_toNat h10]
    · have hdiv : n / 10 < f := by omega
      obtain ⟨ih1, ih2, ih3⟩ := ih (n / 10) hdiv
      refine ⟨by simp [natDigitsGo, h10], ?_, ?_⟩
      · intro c hc
        simp only [natDigitsGo, h10, if_false, List.mem_append,
          List.mem_singleton] at hc
        rcases hc with hc | hc
        · exact ih2 c hc
        · subst hc; exact digitChar_isDigit (by omega)
      · simp only [natDigitsGo, h10, if_false, List.foldl_append, ih3,
          List.foldl_cons, List.foldl_nil]
        rw [digitChar_toNat (by omega : n % 10 < 10)]
        omega

/-- Parsing inverts the decimal expansion. -/
theorem parseNatChars_natDigitChars (n : Nat) :
    parseNatChars (natDigitChars n) = some n := by
  obtain ⟨h1, h2, h3⟩ := natDigitsGo_spec (n + 1) n (by omega)
  unfold parseNatChars natDigitChars
  rw [if_pos ⟨h1, by rw [List.all_eq_true]; exact fun c hc => h2 c hc⟩]
  exact congrArg some h3

/-- A digit is not whitespace. -/
theorem isDigit_not_isWhitespace (c : Char) (h : c.isDigit = true) :
    c.isWhitespace = false := by
  by_cases h1 : c = ' '
  · subst h1; exact absurd h (by decide)
  by_cases h2 : c = '\t'
  · subst h2; exact absurd h (by decide)
  by_cases h3 : c = '\n'
  · subst h3; exact absurd h (by decide)
  by_cases h4 : c = '\x0d'
  · subst h4; exact absurd h (by decide)
  simp [Char.isWhitespace, h1, h2, h3, h4]

/-- `dropWhile` is the identity when no element satisfies the
predicate. -/
theorem dropWhile_eq_self_of {α : Type} (p : α → Bool) (l : List α)
    (h : ∀ c ∈ l, p c = false) : l.dropWhile p = l := by
  cases l with
  | nil => rfl
  | cons c t => simp [List.dropWhile, h c (List.mem_cons_self c t)]

/-- `pyTrim` fixes strings without whitespace. -/
theorem pyTrim_eq_self (s : String) (h : ∀ c ∈ s.data, c.isWhitespace = false) :
    pyTrim s = s := by
  have hinner : s.data.dropWhile Char.isWhitespace = s.data :=
    dropWhile_eq_self_of _ _ h
  have houter : s.data.reverse.dropWhile Char.isWhitespace = s.data.reverse :=
    dropWhile_eq_self_of _ _ (fun c hc => h c (List.mem_reverse.mp hc))
  unfold pyTrim
  rw [show s.toList = s.data from rfl, hinner, houter, List.reverse_reverse]

/-- Parsing inverts Python's `str(int)`. -/
theorem pyParseInt_pyIntStr (i : Int) : pyParseInt (pyIntStr i) = some i := by
  cases i with
  | ofNat n =>
    obtain ⟨h1, h2, _⟩ := natDigitsGo_spec (n + 1) n (by omega)
    have htrim : pyTrim (pyNatStr n) = pyNatStr n := by
      refine pyTrim_eq_self _ (fun c hc => ?_)
      exact isDigit_not_isWhitespace c (h2 c hc)
    have hdata : (pyTrim (pyNatStr n)).toList = natDigitChars n := by
      rw [htrim]; rfl
    show pyParseInt (pyNatStr n) = some (Int.ofNat n)
    unfold pyParseInt
    rw [hdata]
    split
    · rename_i rest heq
      have hmem : ('-' : Char) ∈ natDigitChars n := by rw [heq]; simp
      exact absurd (h2 _ hmem) (by decide)
    · rename_i rest heq
      have hmem : ('+' : Char) ∈ natDigitChars n := by rw [heq]; simp
      exact absurd (h2 _ hmem) (by decide)
    · rw [parseNatChars_natDigitChars n]
      rfl
  | negSucc m =>
    obtain ⟨_, h2, _⟩ := natDigitsGo_spec (m + 2) (m + 1) (by omega)
    have hdata : ("-" ++ pyNatStr (m + 1)).data = '-' :: natDigitChars (m + 1) := by
      rw [String.data_append]
      rfl
    have htrim : pyTrim ("-" ++ pyNatStr (m + 1)) = "-" ++ pyNatStr (m + 1) := by
      refine pyTrim_eq_self _ (fun c hc => ?_)
      rw [hdata] at hc
      rcases List.mem_cons.mp hc with hc | hc
      · subst hc; decide
      · exact isDigit_not_isWhitespace c (h2 c hc)
    show pyParseInt ("-" ++ pyNatStr (m + 1)) = some (Int.negSucc m)
    unfold pyParseInt
    rw [show (pyTrim ("-" ++ pyNatStr (m + 1))).toList = '-' :: natDigitChars (m + 1) by
      rw [htrim]; exact hdata]
    simp only [parseNatChars_natDigitChars]
    rfl

/-- The `str(bool)` / truthy-string round trip. -/
theorem pyParseBoolish_pyStrBool (b : Bool) :
    pyParseBoolish (pyStrBool b) = b := by
  cases b <;> decide

/-- Splitting a separator-free list yields the singleton. -/
theorem splitOnCharGo_no_sep (sc : Char) (a : List Char) (h : sc ∉ a) :
    splitOnCharGo sc a = [a] := by
  induction a with
  | nil => rfl
  | cons c t ih =>
    have hc : ¬ c = sc := fun he => h (by simp [he])
    have ht : sc ∉ t := fun hm => h (List.mem_cons_of_mem _ hm)
    simp [splitOnCharGo, hc, ih ht]

/-- Splitting after a separator-free prefix peels it off. -/
theorem splitOnCharGo_append (sc : Char) (a rest : List Char) (h : sc ∉ a) :
    splitOnCharGo sc (a ++ sc :: rest) = a :: splitOnCharGo sc rest := by
  induction a with
  | nil => simp [splitOnCharGo]
  | cons c t ih =>
    have hc : ¬ c = sc := fun he => h (by simp [he])
    have ht : sc ∉ t := fun hm => h (List.mem_cons_of_mem _ hm)
    rw [List.cons_append, splitOnCharGo, if_neg hc, ih ht]

/-- Splitting inverts joining for separator-free parts. -/
theorem splitOnCharGo_joinChar (sc : Char) : ∀ us : List (List Char), us ≠ [] →
    (∀ u ∈ us, sc ∉ u) → splitOnCharGo sc (joinChar sc us) = us := by
  intro us
  induction us with
  | nil => intro h; exact absurd rfl h
  | cons x xs ih =>
    intro _ hmem
    cases xs with
    | nil =>
      show splitOnCharGo sc (joinChar sc [x]) = [x]
      rw [show joinChar sc [x] = x from rfl]
      exact splitOnCharGo_no_sep sc x (hmem x (List.mem_cons_self x []))
    | cons y rest =>
      rw [show joinChar sc (x :: y :: rest) = x ++ sc :: joinChar sc (y :: rest)
        from rfl]
      rw [splitOnCharGo_append sc x _ (hmem x (List.mem_cons_self x _))]
      rw [ih (by simp) (fun u hu => hmem u (List.mem_cons_of_mem _ hu))]

/-! ## Claim C7 -/

/-- C7 counterexample: for an event whose total byte count is known
but whose `downloaded_bytes` is absent, the claim's "otherwise parse
the percent string" branch would report 50.0, yet the hook computes
the byte ratio with `downloaded` defaulted to 0 and reports 0.0. -/
theorem c7_counterexample :
    progress_hook_percent
      { total_bytes := some 200, percent_str := some "50%" } = 0 ∧
    pyParseFloat (stripCharEnds '%' "50%") = some 50 ∧
    (0 : ℚ) ≠ 50 := by
  refine ⟨by simp [progress_hook_percent, orQ], ?_, by norm_num⟩
  have h1 : stripCharEnds '%' "50%" = "50" := by decide
  rw [h1]
  have h2 : (pyTrim "50").data = ['5', '0'] := by decide
  have h3 : splitOnceChars ['.'] ['5', '0'] = Option.none := by decide
  have h4 : parseNatChars ['5', '0'] = some 50 := by decide
  simp [pyParseFloat, h2, parseDecChars, h3, h4]

/-- C7 amended: the hook reports `downloaded/total*100` whenever a
truthy (non-zero) total byte count is available — `total_bytes`, or
its estimate when `total_bytes` is absent or zero — with
`downloaded_bytes` defaulting to 0 when absent (the percent string is
NOT consulted in that case); only when no truthy total exists is the
percent the parsed `_percent_str` (absent → the `"0.0%"` default,
unparsable → 0.0).  The translation is a total function of the event,
so it never raises. -/
theorem c7_percent_semantics (ev : RawEvent) :
    (∀ t, orQ ev.total_bytes ev.total_bytes_estimate = some t → t ≠ 0 →
      progress_hook_percent ev = ev.downloaded_bytes.getD 0 / t * 100) ∧
    (orQ ev.total_bytes ev.total_bytes_estimate = Option.none →
      progress_hook_percent ev =
        (pyParseFloat (stripCharEnds '%' (ev.percent_str.getD "0.0%"))).getD 0) ∧
    (orQ ev.total_bytes ev.total_bytes_estimate = some 0 →
      progress_hook_percent ev =
        (pyParseFloat (stripCharEnds '%' (ev.percent_str.getD "0.0%"))).getD 0) ∧
    (ev.percent_str = Option.none →
      orQ ev.total_bytes ev.total_bytes_estimate = Option.none →
      progress_hook_percent ev = 0) ∧
    (∀ ps, ev.percent_str = some ps → pyParseFloat (stripCharEnds '%' ps) = Option.none →
      orQ ev.total_bytes ev.total_bytes_estimate = Option.none →
      progress_hook_percent ev = 0) := by
  refine ⟨?_, ?_, ?_, ?_, ?_⟩
  · intro t ht hne; simp [progress_hook_percent, ht, hne]
  · intro h; simp [progress_hook_percent, h]
  · intro h; simp [progress_hook_percent, h]
  · intro hps h
    simp only [progress_hook_percent, h, hps]
    have h1 : stripCharEnds '%' "0.0%" = "0.0" := by decide
    have h2 : (pyTrim "0.0").data = ['0', '.', '0'] := by decide
    have h3 : splitOnceChars ['.'] ['0', '.', '0'] = some (['0'], ['0']) := by decide
    have h4 : parseNatChars ['0'] = some 0 := by decide
    simp [Option.getD, h1, pyParseFloat, h2, parseDecChars, h3, h4]
  · intro ps hps hparse h; simp [progress_hook_percent, h, hps, hparse]

/-- C7 witness: the amended theorem applied to a concrete event with
known byte counts (200 total, 50 downloaded gives 25%). -/
theorem c7_percent_semantics_witness :
    progress_hook_percent
      { total_bytes := some 200, downloaded_bytes := some 50 } = 25 := by
  have h := (c7_percent_semantics
    { total_bytes := some 200, downloaded_bytes := some 50 }).1 200
    (by decide) (by norm_num)
  rw [h]
  norm_num

/-! ## Claim C8 -/

/-- A configuration with an emptied output template and an empty
preferred-language setting. -/
def c8Cfg : AppSettings := { outtmpl_default := "", download_dir := "/dl", yt_lang := "" }

/-- C8 counterexample: the final filter of the options builder drops
only `None` values, so an empty output template survives as an empty
string under `outtmpl`, and an empty preferred-language setting
survives as an empty list under `extractor_args.youtube.lang`. -/
theorem c8_counterexample :
    pyLookup (build_options c8Cfg false "/app") "outtmpl" = some (PyVal.str "") ∧
    pyLookup (build_options c8Cfg false "/app") "extractor_args" =
      some (PyVal.dict [("youtube", PyVal.dict [("lang", PyVal.list [])])]) := by
  exact ⟨rfl, rfl⟩

/-- C8 amended: the options builder omits every option whose resolved
value is `None` — no key of the returned dict maps to a null value —
but values that are empty strings, empty lists or empty nested
mappings are retained; only `None`-valued options are dropped. -/
theorem c8_no_none_options (s : AppSettings) (ap : Bool) (base : String) :
    ∀ kv ∈ build_options s ap base, kv.2 ≠ PyVal.none := by
  intro kv hkv heq
  simp only [build_options] at hkv
  have h2 := List.of_mem_filter hkv
  simp [heq, pyIsNone] at h2

/-- C8 witness: the amended theorem applied to the head option of a
default-configuration build. -/
theorem c8_no_none_options_witness :
    ("noplaylist", PyVal.bool true) ∈ build_options {} false "/app" ∧
    (PyVal.bool true) ≠ PyVal.none := by
  have hhead : build_options {} false "/app" =
      ("noplaylist", PyVal.bool true) :: (build_options {} false "/app").tail := rfl
  have hmem : ("noplaylist", PyVal.bool true) ∈ build_options {} false "/app" := by
    rw [hhead]; exact List.mem_cons_self _ _
  exact ⟨hmem, c8_no_none_options {} false "/app" _ hmem⟩

/-! ## Claim C5 -/

/-- The spec invariant: `error` and `logPath` are non-empty iff the
job is in `Error`. -/
def errInvariant (j : Job) : Prop :=
  (j.error ≠ "" ∧ j.logPath ≠ "") ↔ j.state = "error"

/-- A string with a non-empty right append operand is non-empty. -/
theorem append_ne_empty_right (a b : String) (h : b ≠ "") : a ++ b ≠ "" := by
  intro hc
  apply h
  have hd := congrArg String.data hc
  rw [String.data_append] at hd
  have hb := (List.append_eq_nil.mp hd).2
  cases b with
  | mk l =>
    simp only [String.data] at hb
    subst hb
    rfl

/-- The error-log filename is never empty, so a successful log write
yields a non-empty path. -/
theorem write_error_log_ne (appDir title : String) (i : Int) (ts : String) :
    write_error_log true appDir title i ts ≠ "" := by
  unfold write_error_log pyPathJoin
  set fname := "ERROR_" ++ sanitizeTitle title ++ "(" ++ pyIntStr i ++ ")_" ++
    ts ++ ".log" with hf
  have hfname : fname ≠ "" := by
    intro h
    have hd := congrArg String.data h
    simp [hf, String.data_append] at hd
  by_cases h1 : osIsAbs fname
  · simp [h1, hfname]
  · by_cases h2 : appDir = ""
    · simp [h1, h2, hfname]
    · by_cases h3 : pyEndsWith appDir "/"
      · simp [h1, h2, h3]
        exact append_ne_empty_right _ _ hfname
      · simp [h1, h2, h3]
        exact append_ne_empty_right _ _ hfname

/-- A concrete queued job satisfying the invariant. -/
def c5Job : Job where
  id := 2
  title := "clip"
  status := "Queued"
  state := "queued"
  locked := false
  urls := ["https://youtu.be/abc123DEF45"]
  error := ""
  createdAt := "2024-01-01T00:00:00"
  updatedAt := "2024-01-01T00:00:00"
  logPath := ""
  thumbPath := ""

/-- C5 counterexample: when the error-log file write fails, the error
handler leaves the job in `Error` with a non-empty diagnostic but an
EMPTY `logPath`, violating the claimed invariant. -/
theorem c5_counterexample :
    (on_error (fun k => k) false "/app" "ts" "t1" "boom" c5Job).state = "error" ∧
    (on_error (fun k => k) false "/app" "ts" "t1" "boom" c5Job).error = "boom" ∧
    (on_error (fun k => k) false "/app" "ts" "t1" "boom" c5Job).logPath = "" := by
  exact ⟨rfl, rfl, rfl⟩

/-- C5 amended: provided every error event carries a non-empty
diagnostic (which the worker guarantees — it emits
`traceback.format_exc()` or a non-empty import-failure message) and
the error-log file write succeeds, each of the covered operations —
submission, error handling, done handling, restart — preserves the
invariant that `error` and `logPath` are non-empty iff the state is
`Error`; when the log write fails, the invariant can break (see the
counterexample). -/
theorem c5_invariant_preserved (trF : String → String) (appDir ts now msg : String)
    (j : Job) (hj : errInvariant j) (hmsg : msg ≠ "") :
    errInvariant (on_error trF true appDir ts now msg j) ∧
    errInvariant (on_done trF now j) ∧
    errInvariant (restart_item trF now j) ∧
    (∀ items urls newId bl qs j',
      run_ytdlp_submit items urls newId now bl qs = some j' → errInvariant j') := by
  refine ⟨?_, ?_, ?_, ?_⟩
  · exact Iff.intro (fun _ => rfl)
      (fun _ => ⟨hmsg, write_error_log_ne appDir j.title j.id ts⟩)
  · by_cases hs : j.state = "error"
    · simpa [on_done, hs] using hj
    · simp [errInvariant, on_done, hs]
  · by_cases hl : j.locked
    · simpa [restart_item, hl] using hj
    · by_cases hu : j.urls.map normalize_youtube_url = []
      · simpa [restart_item, hl, hu] using hj
      · simp [errInvariant, restart_item, hl, hu]
  · intro items urls newId bl qs j' hsub
    simp only [run_ytdlp_submit] at hsub
    by_cases hfilt : submit_filter (get_active_video_ids items) urls = []
    · simp [hfilt] at hsub
    · simp only [hfilt, if_false] at hsub
      cases hsub
      simp [errInvariant]

/-- C5 witness: the amended theorem applied to the concrete queued
job, a non-empty diagnostic and a successful log write. -/
theorem c5_invariant_preserved_witness :
    errInvariant (on_error (fun k => k) true "/app" "ts" "now" "boom" c5Job) ∧
    errInvariant (on_done (fun k => k) "now" c5Job) := by
  obtain ⟨h1, h2, _, _⟩ := c5_invariant_preserved (fun k => k) "/app" "ts" "now"
    "boom" c5Job (by simp [errInvariant, c5Job]) (by decide)
  exact ⟨h1, h2⟩

/-! ## Claim C4 -/

/-- A job record as the running application produces it: status text
fixed under re-localization, non-empty timestamps, a thumbnail path
that (when set) refers to an existing file, and URLs that are
non-empty, free of the `|` delimiter, and already normalized. -/
def validJob (fsExists : String → Bool) (trF : String → String) (j : Job) : Prop :=
  localize_status trF j.status = j.status ∧
  j.createdAt ≠ "" ∧ j.updatedAt ≠ "" ∧
  (j.thumbPath = "" ∨ fsExists j.thumbPath = true) ∧
  (∀ u ∈ j.urls, u ≠ "" ∧ ('|' : Char) ∉ u.data ∧ normalize_youtube_url u = u)

/-- Mapping a function that fixes every element is the identity. -/
theorem map_eq_self_of {α : Type} (f : α → α) (l : List α)
    (h : ∀ u ∈ l, f u = u) : l.map f = l := by
  induction l with
  | nil => rfl
  | cons x xs ih =>
    simp only [List.map_cons, h x (List.mem_cons_self x xs),
      ih (fun u hu => h u (List.mem_cons_of_mem _ hu))]

/-- `filterMap` with a function returning `some` of every element is
the identity. -/
theorem filterMap_eq_self_of {α : Type} (f : α → Option α) (l : List α)
    (h : ∀ x ∈ l, f x = some x) : l.filterMap f = l := by
  induction l with
  | nil => rfl
  | cons x xs ih =>
    rw [List.filterMap_cons, h x (List.mem_cons_self x xs),
      ih (fun u hu => h u (List.mem_cons_of_mem _ hu))]

/-- Splitting the pipe-joined URL list and dropping empties restores
the URL list, for non-empty pipe-free URLs. -/
theorem pySplit_pyJoin (urls : List String) (h : ∀ u ∈ urls, u ≠ "")
    (h2 : ∀ u ∈ urls, ('|' : Char) ∉ u.data) :
    (pySplitChar '|' (pyJoinChar '|' urls)).filter (fun u => u ≠ "") = urls := by
  cases urls with
  | nil => rfl
  | cons u us =>
    have hsplit : splitOnCharGo '|' (joinChar '|' ((u :: us).map String.toList)) =
        (u :: us).map String.toList := by
      apply splitOnCharGo_joinChar
      · simp
      · intro l hl
        simp only [List.mem_map] at hl
        obtain ⟨v, hv, rfl⟩ := hl
        exact h2 v hv
    unfold pySplitChar pyJoinChar
    rw [show (String.mk (joinChar '|' ((u :: us).map String.toList))).toList =
      joinChar '|' ((u :: us).map String.toList) from rfl]
    rw [hsplit, List.map_map]
    have hmk : (u :: us).map (String.mk ∘ String.toList) = u :: us :=
      map_eq_self_of _ _ (fun v _ => by cases v; rfl)
    rw [hmk]
    rw [List.filter_eq_self.mpr ?_]
    intro a ha
    simpa using h a ha

/-- Deserializing the serialization of a valid job restores it
exactly. -/
theorem parseRow_serializeJob (fsExists : String → Bool) (trF : String → String)
    (now : String) (j : Job) (hv : validJob fsExists trF j) :
    parseRow fsExists trF now (serializeJob j) = some j := by
  obtain ⟨id, title, status, state, locked, urls, error, createdAt, updatedAt,
    logPath, thumbPath⟩ := j
  obtain ⟨hstat, hcr, hup, hthumb, hurls⟩ := hv
  simp only [parseRow, serializeJob, pyParseInt_pyIntStr, Option.some.injEq]
  rw [Job.mk.injEq]
  refine ⟨rfl, rfl, hstat, rfl, pyParseBoolish_pyStrBool locked, ?_, rfl, ?_, ?_,
    rfl, ?_⟩
  · rw [pySplit_pyJoin urls (fun u hu => (hurls u hu).1)
      (fun u hu => (hurls u hu).2.1)]
    exact map_eq_self_of _ _ (fun u hu => (hurls u hu).2.2)
  · rw [if_neg hcr]
  · rw [if_neg hup]
  · rcases hthumb with hth | hth
    · subst hth
      simp
    · by_cases he : thumbPath = ""
      · subst he; simp
      · rw [if_pos ⟨he, hth⟩]

/-- A concrete done job with a recorded thumbnail path. -/
def c4Job : Job where
  id := 7
  title := "clip"
  status := "Downloading  ·  42.0%"
  state := "done"
  locked := false
  urls := ["https://youtu.be/abc123DEF45"]
  error := ""
  createdAt := "2024-01-01T10:00:00"
  updatedAt := "2024-01-02T11:00:00"
  logPath := ""
  thumbPath := "/thumbs/abc123DEF45.jpg"

/-- C4 counterexample: saving and loading does NOT reproduce every
persisted field — when the thumbnail file no longer exists, the loaded
job's `thumbPath` is cleared, so the round trip is not the identity. -/
theorem c4_counterexample :
    load_list_csv (fun _ => false) (fun k => k) "now" false
      (save_list_csv [c4Job]) = [{ c4Job with thumbPath := "" }] ∧
    [{ c4Job with thumbPath := "" }] ≠ [c4Job] := by
  constructor
  · unfold load_list_csv
    rw [show save_list_csv [c4Job] = [serializeJob c4Job] from rfl]
    rw [List.mergeSort_of_sorted (List.pairwise_singleton _ _)]
    decide
  · decide

/-- C4 amended: for every collection of valid jobs — status text fixed
under re-localization, non-empty timestamps, thumbnail paths (when
set) still existing on disk, and URLs non-empty, delimiter-free and
already normalized — saving to the store and loading it back
reproduces every persisted field of every job exactly, up to the
reordering performed by the load-time sort (the loaded collection is a
permutation of the saved one; each surviving job record is equal
field-by-field to the original). -/
theorem c4_save_load_roundtrip (fsExists : String → Bool) (trF : String → String)
    (now : String) (sortDesc : Bool) (items : List Job)
    (h : ∀ j ∈ items, validJob fsExists trF j) :
    (load_list_csv fsExists trF now sortDesc (save_list_csv items)).Perm items := by
  unfold load_list_csv save_list_csv
  have hperm := List.mergeSort_perm (items.map serializeJob) (rowLe sortDesc)
  have h1 := hperm.filterMap (parseRow fsExists trF now)
  refine h1.trans ?_
  rw [List.filterMap_map]
  have h2 : items.filterMap (parseRow fsExists trF now ∘ serializeJob) = items :=
    filterMap_eq_self_of (parseRow fsExists trF now ∘ serializeJob) items
      (fun x hx => parseRow_serializeJob fsExists trF now x (h x hx))
  rw [h2]

/-- C4 witness: the round-trip theorem applied to a singleton
collection whose thumbnail file exists. -/
theorem c4_save_load_roundtrip_witness :
    (load_list_csv (fun _ => true) (fun k => k) "now" false
      (save_list_csv [c4Job])).Perm [c4Job] := by
  exact c4_save_load_roundtrip (fun _ => true) (fun k => k) "now" false [c4Job]
    (by intro j hj
        simp only [List.mem_singleton] at hj
        subst hj
        unfold validJob
        decide)

end Tartaros
